import Mathlib

/-!
# Verification of `scripts/template-sync.sh`

A shallow embedding of the template-synchronization shell script.  The script
runs with `set -euo pipefail` from the project root.  We model:

* the filesystem as an association list from root-relative paths to file
  contents, plus a list of directories created with `mkdir -p`;
* the current working directory explicitly (`sync_files` does
  `cd "$TEMP_DIR"` and every relative path used inside the per-file loop is
  resolved against that directory);
* `yq` as a parse oracle `String → Option SyncConfig` applied to the content
  of the file at the path the script names (a missing or unparseable file
  yields `none`, which the script's `2>/dev/null` / empty-input `grep`
  handling turns into empty pattern lists);
* bash `[[ "$file" == $pattern ]]` matching (used for `exclude` and
  `create_if_missing`) as a glob matcher with `*`, `?` and bracket classes;
* `yq eval '.overwrite[]' | grep -q "^$file$"` (used for `overwrite` and
  `merge`) as a basic-regular-expression matcher in which the FILE PATH is
  the anchored regex matched against each configuration entry line;
* hooks as opaque command strings; executing one appends it to a trace.

List entries of a parsed configuration stand for single output lines of
`yq`, hence contain no newline.  `hereLines` models the `<<< "$var"` loops:
an empty variable still produces one empty line.
-/

/-- `$SYNC_CONFIG` from the script. -/
def SYNC_CONFIG : String := ".template-sync.yml"

/-- `$TEMPLATE_VERSION_FILE` from the script. -/
def TEMPLATE_VERSION_FILE : String := ".template-version"

/-- `$TEMP_DIR` from the script (a relative path). -/
def TEMP_DIR : String := ".template-sync-tmp"

/-- Resolve a path `q` against the current working directory `cwd`
(`""` is the project root).  All paths in the script are relative. -/
def joinPath (cwd q : String) : String :=
  if cwd = "" then q else cwd ++ "/" ++ q

/-- Boolean list-front test (used to model path containment). -/
def listFront : List Char → List Char → Bool
  | [], _ => true
  | _ :: _, [] => false
  | a :: as, b :: bs => if a = b then listFront as bs else false

/-- `front a q`: the string `q` starts with the string `a`. -/
def strFront (a q : String) : Bool := listFront a.data q.data

/-- Paths that live inside the scratch clone directory, or the scratch
directory itself: these are the paths `rm -rf "$TEMP_DIR"` erases. -/
def scratchName (q : String) : Bool :=
  if strFront (TEMP_DIR ++ "/") q then true else decide (q = TEMP_DIR)

/-- The parsed form of a `.template-sync.yml` document, as read by `yq`.
A key absent from the document gives an empty list. -/
structure SyncConfig where
  repository : List String := []
  branch : List String := []
  overwrite : List String := []
  merge : List String := []
  create_if_missing : List String := []
  exclude : List String := []
  pre_sync : List String := []
  post_sync : List String := []
deriving Repr, DecidableEq

/-- Filesystem and observable-event state threaded through the run.
`applied` is a ghost trace: one entry per file mutation a strategy actually
performs (none are recorded under `--dry-run`). -/
structure St where
  files : List (String × String)
  dirs : List String
  hooksRun : List String
  logs : List String
  applied : List (String × String)
deriving Repr, DecidableEq

/-- Read a file (`cat` / `[[ -f ]]` / `cp` source). -/
def fsLookup : List (String × String) → String → Option String
  | [], _ => none
  | e :: rest, q => if e.1 = q then some e.2 else fsLookup rest q

/-- Write a file (`cp` destination, `echo >`), keeping list position. -/
def fsWrite : List (String × String) → String → String → List (String × String)
  | [], q, c => [(q, c)]
  | e :: rest, q, c => if e.1 = q then (q, c) :: rest else e :: fsWrite rest q c

/-- `mkdir -p` (idempotent). -/
def addDir (ds : List String) (d : String) : List String :=
  if d ∈ ds then ds else ds ++ [d]

/-- Characters of a path up to (excluding) its last `/`, or `none` if the
path has no `/`. -/
def dirChars : List Char → Option (List Char)
  | [] => none
  | c :: cs =>
    match dirChars cs with
    | some t => some (c :: t)
    | none => if c = '/' then some [] else none

/-- `$(dirname "$q")`. -/
def dirName (q : String) : String :=
  match dirChars q.data with
  | some t => String.mk t
  | none => "."

/-- Members of a bracket expression up to the closing `]`; `none` when the
expression is unterminated. -/
def classSpanAux : List Char → List Char → Option (List Char × List Char)
  | _, [] => none
  | acc, ']' :: rest => some (acc.reverse, rest)
  | acc, c :: rest => classSpanAux (c :: acc) rest

/-- Split a bracket-expression body (a `]` in first position is a literal
member, as in the shell). -/
def classSpan : List Char → Option (List Char × List Char)
  | ']' :: rest => classSpanAux [']'] rest
  | body => classSpanAux [] body

/-- Does a bracket-expression member list match `c` (with `a-b` ranges)? -/
def classMembers : List Char → Char → Bool
  | [], _ => false
  | a :: '-' :: b :: rest, c =>
    if a ≤ c ∧ c ≤ b then true else classMembers rest c
  | a :: rest, c => if a = c then true else classMembers rest c

/-- Fuel-driven core of bash `[[ "$s" == $pat ]]` pattern matching:
`*` matches any run of characters (including `/`), `?` one character,
`[...]` a class with optional `!`/`^` negation; an unterminated `[` is a
literal.  The fuel strictly exceeds `|pat| + |s|`, which bounds the
recursion. -/
def globMatchAux : Nat → List Char → List Char → Bool
  | 0, _, _ => false
  | _ + 1, [], s => s.isEmpty
  | fuel + 1, '*' :: ps, s =>
    match s with
    | [] => globMatchAux fuel ps []
    | _ :: cs => if globMatchAux fuel ps s then true else globMatchAux fuel ('*' :: ps) cs
  | fuel + 1, '?' :: ps, s =>
    match s with
    | [] => false
    | _ :: cs => globMatchAux fuel ps cs
  | fuel + 1, '[' :: ps, s =>
    match s with
    | [] => false
    | c :: cs =>
      let nb : Bool × List Char :=
        match ps with
        | '!' :: rest => (true, rest)
        | '^' :: rest => (true, rest)
        | _ => (false, ps)
      match classSpan nb.2 with
      | some (members, rest) =>
        if nb.1 ≠ classMembers members c then globMatchAux fuel rest cs else false
      | none => if c = '[' then globMatchAux fuel ps cs else false
  | fuel + 1, p :: ps, s =>
    match s with
    | [] => false
    | c :: cs => if p = c then globMatchAux fuel ps cs else false

/-- Bash `[[ "$s" == $pat ]]`. -/
def globMatch (pat s : String) : Bool :=
  globMatchAux (pat.length + s.length + 1) pat.data s.data

/-- One atom of a basic regular expression. -/
inductive BreAtom
  | dot
  | lit (c : Char)
  | cls (neg : Bool) (members : List Char)
deriving Repr, DecidableEq

/-- Does a BRE atom match a character? -/
def atomMatches : BreAtom → Char → Bool
  | .dot, _ => true
  | .lit a, c => a = c
  | .cls neg ms, c => neg ≠ classMembers ms c

/-- Parse the leading atom of a BRE (`.`, `\c`, `[...]`, literal; a leading
`*` and an unterminated `[` are literals, as in POSIX grep). -/
def breParseAtom : List Char → Option (BreAtom × List Char)
  | [] => none
  | c :: rest =>
    if c = '\\' then
      match rest with
      | c2 :: rest2 => some (.lit c2, rest2)
      | [] => some (.lit '\\', [])
    else if c = '.' then some (.dot, rest)
    else if c = '[' then
      let nb : Bool × List Char :=
        match rest with
        | '^' :: rest2 => (true, rest2)
        | _ => (false, rest)
      match classSpan nb.2 with
      | some (members, rest2) => some (.cls nb.1 members, rest2)
      | none => some (.lit '[', rest)
    else some (.lit c, rest)

/-- Does a pattern remainder begin with the repetition operator `*`? -/
def isStar : List Char → Bool
  | [] => false
  | c :: _ => c = '*'

/-- Fuel-driven BRE matcher for a whole string (the pattern is anchored on
both sides, as in `grep -q "^$file$"`).  An atom followed by `*` matches
zero or more occurrences.  The fuel strictly exceeds `|pat| + |s|`. -/
def breMatchAux : Nat → List Char → List Char → Bool
  | 0, _, _ => false
  | fuel + 1, pat, s =>
    match breParseAtom pat with
    | none => s.isEmpty
    | some (a, rest) =>
      if isStar rest then
        if breMatchAux fuel (rest.drop 1) s then true
        else
          match s with
          | [] => false
          | c :: cs => if atomMatches a c then breMatchAux fuel pat cs else false
      else
        match s with
        | [] => false
        | c :: cs => if atomMatches a c then breMatchAux fuel rest cs else false

/-- `printf '%s\n' lines... | grep -q "^$file$"`: some entry line is matched
in full by the file path read as a BRE. -/
def breFullMatch (file line : String) : Bool :=
  breMatchAux (file.length + line.length + 1) file.data line.data

/-- The lines a `while read` loop over `<<< "$var"` sees, where `var` holds
the newline-joined entries: an empty variable still yields one empty line. -/
def hereLines (xs : List String) : List String :=
  if xs = [] then [""] else xs

/-- The lines `run_hooks` iterates over, after its `[[ -n "$hooks" ]]`
guard: an empty variable (no entries, or a single empty entry) runs
nothing. -/
def hookLines (xs : List String) : List String :=
  if xs = [] ∨ xs = [""] then [] else xs

/-- `yq eval '.<key>[]' <path>` as a list of output lines: parse the file at
`path` and project a field; any failure gives no lines. -/
def yqList (p : String → Option SyncConfig) (st : St) (path : String)
    (sel : SyncConfig → List String) : List String :=
  match (fsLookup st.files path).bind p with
  | some cfg => sel cfg
  | none => []

/-- Parsed configuration at a path, if the file exists and parses. -/
def configAt (p : String → Option SyncConfig) (st : St) (path : String) :
    Option SyncConfig :=
  (fsLookup st.files path).bind p

/-- The exclusion loop of `should_sync_file`, factored over the parsed
configuration: some line of the `exclude` list glob-matches the path. -/
def excludedBy (cfg : Option SyncConfig) (file : String) : Bool :=
  (hereLines (match cfg with | some c => c.exclude | none => [])).any
    (fun pat => globMatch pat file)

/-- The category resolution of `get_sync_strategy`, factored over the parsed
configuration: `overwrite` and `merge` entries are tested with
`grep -q "^$file$"` (the path as an anchored BRE against each entry line),
`create_if_missing` entries with bash glob matching, in that order. -/
def strategyOf (cfg : Option SyncConfig) (file : String) : String :=
  let ow := match cfg with | some c => c.overwrite | none => []
  let mg := match cfg with | some c => c.merge | none => []
  let cr := match cfg with | some c => c.create_if_missing | none => []
  if ow.any (fun line => breFullMatch file line) then "overwrite"
  else if mg.any (fun line => breFullMatch file line) then "merge"
  else if (hereLines cr).any (fun pat => globMatch pat file) then "create_if_missing"
  else "skip"

/-- `should_sync_file`: reads `"$SYNC_CONFIG"` relative to the current
working directory and returns false (do not sync) when an exclude pattern
matches. -/
def should_sync_file (p : String → Option SyncConfig) (st : St)
    (cwd file : String) : Bool :=
  !(excludedBy (configAt p st (joinPath cwd SYNC_CONFIG)) file)

/-- `get_sync_strategy`: reads `"$SYNC_CONFIG"` relative to the current
working directory. -/
def get_sync_strategy (p : String → Option SyncConfig) (st : St)
    (cwd file : String) : String :=
  strategyOf (configAt p st (joinPath cwd SYNC_CONFIG)) file

/-- `backup_file "$file"`: if the file exists (relative to `cwd`), copy it
to `"$BACKUP_DIR/$file"` (also relative to `cwd`), creating the parent
directory. -/
def backup_file (backupDir cwd file : String) (st : St) : St :=
  match fsLookup st.files (joinPath cwd file) with
  | some content =>
    let bp := joinPath cwd (backupDir ++ "/" ++ file)
    { st with
        dirs := addDir st.dirs (dirName bp),
        files := fsWrite st.files bp content,
        logs := st.logs ++ ["Backed up " ++ file] }
  | none => st

/-- `sync_file "$file" "$strategy"`.  The copy source is
`"$TEMP_DIR/$file"` and the destination `"$file"`, both resolved against
the current working directory; if the source does not exist the function
returns without doing anything. -/
def sync_file (backupDir : String) (dryRun : Bool) (cwd file strategy : String)
    (st : St) : St :=
  let source := joinPath cwd (TEMP_DIR ++ "/" ++ file)
  let destPath := joinPath cwd file
  match fsLookup st.files source with
  | none => st
  | some srcContent =>
    if strategy = "overwrite" then
      if dryRun then
        { st with logs := st.logs ++ ["[DRY RUN] Would overwrite " ++ file] }
      else
        let st1 := backup_file backupDir cwd file st
        { st1 with
            dirs := addDir st1.dirs (dirName destPath),
            files := fsWrite st1.files destPath srcContent,
            logs := st1.logs ++ ["Updated " ++ file ++ " (overwrite)"],
            applied := st1.applied ++ [(file, "overwrite")] }
    else if strategy = "merge" then
      match fsLookup st.files destPath with
      | some destContent =>
        if destContent = srcContent then st
        else if dryRun then
          { st with logs := st.logs ++ ["[DRY RUN] Would create merge file for " ++ file] }
        else
          let st1 := backup_file backupDir cwd file st
          { st1 with
              files := fsWrite st1.files (joinPath cwd (file ++ ".merge")) srcContent,
              logs := st1.logs ++ ["Created " ++ file ++ ".merge - manual merge required"],
              applied := st1.applied ++ [(file, "merge")] }
      | none =>
        if dryRun then
          { st with logs := st.logs ++ ["[DRY RUN] Would create " ++ file] }
        else
          { st with
              dirs := addDir st.dirs (dirName destPath),
              files := fsWrite st.files destPath srcContent,
              logs := st.logs ++ ["Created " ++ file],
              applied := st.applied ++ [(file, "merge")] }
    else if strategy = "create_if_missing" then
      match fsLookup st.files destPath with
      | none =>
        if dryRun then
          { st with logs := st.logs ++ ["[DRY RUN] Would create " ++ file] }
        else
          { st with
              dirs := addDir st.dirs (dirName destPath),
              files := fsWrite st.files destPath srcContent,
              logs := st.logs ++ ["Created " ++ file],
              applied := st.applied ++ [(file, "create_if_missing")] }
      | some _ => st
    else st

/-- The body of the `find . -type f | while read -r file` loop of
`sync_files`, running with the scratch directory as working directory:
skip `.git/` entries, consult the exclude patterns, resolve a strategy and
apply it unless it is `skip`. -/
def processOne (p : String → Option SyncConfig) (backupDir : String)
    (dryRun : Bool) (st : St) (file : String) : St :=
  if strFront ".git/" file then st
  else if should_sync_file p st TEMP_DIR file then
    let strategy := get_sync_strategy p st TEMP_DIR file
    if strategy = "skip" then st
    else sync_file backupDir dryRun TEMP_DIR file strategy st
  else st

/-- The relative names `find .` enumerates inside the scratch clone
(the leading `./` already stripped). -/
def enumFiles (st : St) : List String :=
  (st.files.filter (fun e => strFront (TEMP_DIR ++ "/") e.1)).map
    (fun e => e.1.drop (TEMP_DIR.length + 1))

/-- `sync_files`: `cd "$TEMP_DIR"`, process every enumerated file, `cd -`. -/
def sync_files (p : String → Option SyncConfig) (backupDir : String)
    (dryRun : Bool) (st : St) : St :=
  (enumFiles st).foldl (processOne p backupDir dryRun)
    { st with logs := st.logs ++ ["Processing template files..."] }

/-- `run_hooks "$hook_type"`, called from `main` with the project root as
working directory, so the hook list comes from the LOCAL configuration.
Under `--dry-run` hooks are only announced. -/
def run_hooks (p : String → Option SyncConfig) (dryRun : Bool)
    (sel : SyncConfig → List String) (label : String) (st : St) : St :=
  match hookLines (yqList p st SYNC_CONFIG sel) with
  | [] => st
  | hs =>
    hs.foldl
      (fun acc h =>
        if dryRun then
          { acc with logs := acc.logs ++ ["[DRY RUN] Would run: " ++ h] }
        else
          { acc with hooksRun := acc.hooksRun ++ [h] })
      { st with logs := st.logs ++ ["Running " ++ label ++ " hooks..."] }

/-- The upstream template repository as the script observes it: the tag
names `git ls-remote --tags` reports, the output of
`git describe --tags --always` inside the fresh shallow clone, the file
tree of the cloned branch, and whether the clone succeeds. -/
structure RemoteRepo where
  tags : List String
  headDescribe : String
  files : List (String × String)
  cloneOk : Bool
deriving Repr, DecidableEq

/-- Numeric value of a nonempty all-digit character run. -/
def digitsVal (l : List Char) : Option Nat :=
  if l ≠ [] ∧ l.all (fun c => c.isDigit) then
    some (l.foldl (fun n c => n * 10 + (c.toNat - 48)) 0)
  else none

/-- Split a character list on `.`. -/
def splitDots : List Char → List (List Char)
  | [] => [[]]
  | '.' :: rest => [] :: splitDots rest
  | c :: rest =>
    match splitDots rest with
    | [] => [[c]]
    | piece :: ps => (c :: piece) :: ps

/-- A tag of the exact shape `v<major>.<minor>.<patch>`, as selected by
`grep -oE 'v[0-9]+\.[0-9]+\.[0-9]+'` over the tag names. -/
def semverTriple (s : String) : Option (Nat × Nat × Nat) :=
  match s.data with
  | 'v' :: rest =>
    match splitDots rest with
    | [a, b, c] =>
      match digitsVal a, digitsVal b, digitsVal c with
      | some x, some y, some z => some (x, y, z)
      | _, _, _ => none
    | _ => none
  | _ => none

/-- `sort -V` ordering on version triples. -/
def verLe (a b : Nat × Nat × Nat) : Bool :=
  if a.1 ≠ b.1 then decide (a.1 < b.1)
  else if a.2.1 ≠ b.2.1 then decide (a.2.1 < b.2.1)
  else decide (a.2.2 ≤ b.2.2)

/-- `get_latest_version`: the highest `vN.N.N` tag reported by
`git ls-remote --tags`, or `"main"` when there is none (the `|| echo main`
fallback taken when `grep` finds no match). -/
def get_latest_version (repo : RemoteRepo) : String :=
  let cands := repo.tags.filterMap (fun t => (semverTriple t).map (fun v => (v, t)))
  match cands with
  | [] => "main"
  | c :: cs => (cs.foldl (fun best x => if verLe best.1 x.1 then x else best) c).2

/-- `get_current_version`: the content of the version marker, or
`"unknown"`. -/
def get_current_version (st : St) : String :=
  match fsLookup st.files TEMPLATE_VERSION_FILE with
  | some v => v
  | none => "unknown"

/-- `rm -rf "$TEMP_DIR"`. -/
def removeScratch (st : St) : St :=
  { st with
      files := st.files.filter (fun e => !(scratchName e.1)),
      dirs := st.dirs.filter (fun d => !(scratchName d)) }

/-- A successful `git clone --depth 1` of the template into the scratch
directory: the branch's files appear under `TEMP_DIR/`. -/
def addSnapshot (st : St) (repo : RemoteRepo) : St :=
  { st with
      files := st.files ++ repo.files.map (fun e => (TEMP_DIR ++ "/" ++ e.1, e.2)),
      dirs := addDir st.dirs TEMP_DIR }

/-- The parsed configuration shipped inside the upstream snapshot, which is
the one the per-file loop reads (its working directory is the scratch
clone). -/
def snapCfg (p : String → Option SyncConfig) (repo : RemoteRepo) :
    Option SyncConfig :=
  (fsLookup repo.files SYNC_CONFIG).bind p

/-- Result of one invocation: the process exit status and the final state. -/
structure Outcome where
  exitCode : Nat
  st : St
deriving Repr, DecidableEq

/-- The steps of `main` between confirmation and the clone result: create
the backup directory (non-dry only), run pre-sync hooks, log, and the
`rm -rf "$TEMP_DIR"` that `clone_template` performs before `git clone`. -/
def preClone (p : String → Option SyncConfig) (backupDir : String)
    (dryRun : Bool) (st0 : St) : St :=
  let st := if !dryRun then { st0 with dirs := addDir st0.dirs backupDir } else st0
  let st := run_hooks p dryRun (fun c => c.pre_sync) "pre_sync" st
  let st := { st with logs := st.logs ++ ["Cloning template repository..."] }
  removeScratch st

/-- The steps of `main` after a successful clone: process the files, write
the version marker (non-dry only), run post-sync hooks, remove the scratch
clone, and log the summary. -/
def afterClone (p : String → Option SyncConfig) (repo : RemoteRepo)
    (backupDir : String) (dryRun : Bool) (st0 : St) : St :=
  let st := sync_files p backupDir dryRun st0
  let st :=
    if !dryRun then
      { st with
          files := fsWrite st.files TEMPLATE_VERSION_FILE repo.headDescribe,
          logs := st.logs ++ ["Updated template version to " ++ repo.headDescribe] }
    else st
  let st := run_hooks p dryRun (fun c => c.post_sync) "post_sync" st
  let st := removeScratch st
  if dryRun then
    { st with logs := st.logs ++ ["Dry run complete - no changes were made"] }
  else
    { st with logs := st.logs ++ ["Sync complete!"] }

/-- The tail of `main` once the run is confirmed (or unconfirmed dry run).
A clone failure kills the script via `set -e`, modelled as exit status
128. -/
def mainSyncPath (p : String → Option SyncConfig) (repo : RemoteRepo)
    (backupDir : String) (dryRun : Bool) (st0 : St) : Outcome :=
  let st := preClone p backupDir dryRun st0
  if !repo.cloneOk then
    ⟨128, st⟩
  else
    ⟨0, afterClone p repo backupDir dryRun (addSnapshot st repo)⟩

/-- `main`, under `set -euo pipefail`.

* A missing or unparseable configuration aborts with status 1
  (`read_config`, or the failing `yq` command substitution).
* Under `--check`, `check_updates` returns 0 exactly when the persisted
  marker differs from the latest upstream version, in which case `exit 0`
  is reached; otherwise its `return 1` trips `set -e` and the process dies
  with status 1.
* Without `--force`, a declined confirmation exits 0 (`--dry-run` skips
  the prompt).
* The backup directory is created, then pre-sync hooks run, then the
  template is cloned; a clone failure kills the run (status of the failed
  `git clone`, modelled as 128).
* After `sync_files`, a non-dry run writes `git describe --tags --always`
  of the clone to the version marker; post-sync hooks run; the scratch
  clone is removed. -/
def runMain (p : String → Option SyncConfig) (repo : RemoteRepo)
    (backupDir : String) (dryRun force checkOnly confirm : Bool)
    (st0 : St) : Outcome :=
  let st := { st0 with logs := st0.logs ++ ["Template Sync Tool"] }
  match (fsLookup st.files SYNC_CONFIG).bind p with
  | none =>
    ⟨1, { st with logs := st.logs ++ ["Configuration file " ++ SYNC_CONFIG ++ " not found!"] }⟩
  | some _cfg =>
    if checkOnly then
      let cur := get_current_version st
      let latest := get_latest_version repo
      let st := { st with logs := st.logs ++
        ["Current template version: " ++ cur, "Latest template version: " ++ latest] }
      if cur ≠ latest then
        ⟨0, { st with logs := st.logs ++ ["Updates available!"] }⟩
      else
        ⟨1, { st with logs := st.logs ++ ["Already up to date"] }⟩
    else if !force && !dryRun && !confirm then
      ⟨0, { st with logs := st.logs ++ ["Sync cancelled"] }⟩
    else
      mainSyncPath p repo backupDir dryRun st

/-- The file path read as an anchored BRE, restricted to paths free of
`\`, `[` and `*`: each `.` in the path matches any single character and
every other character matches itself, end to end. -/
def dotEq : List Char → List Char → Bool
  | [], [] => true
  | a :: as, b :: bs => if a = '.' ∨ a = b then dotEq as bs else false
  | _, _ => false

/-- A path containing none of the BRE metacharacters `\`, `[`, `*`. -/
def noMetaStr (f : String) : Bool :=
  f.data.all (fun c => ¬ (c = '\\' ∨ c = '[' ∨ c = '*'))

/-! ## Concrete scenario data

Small worlds used to evaluate the embedded script on the spec's own
scenarios.  File contents that must parse as YAML configurations are
represented by marker strings which `demoParse` maps to their parsed
form. -/

/-- Configuration listing `.gitignore` under `overwrite` (spec scenario). -/
def cfgOverwriteG : SyncConfig := { overwrite := [".gitignore"] }

/-- Configuration listing `Makefile` under `merge` (spec scenario). -/
def cfgMergeMk : SyncConfig := { merge := ["Makefile"] }

/-- Configuration excluding `.template-*`. -/
def cfgExclTV : SyncConfig := { exclude := [".template-*"] }

/-- Configuration listing the version marker under `create_if_missing`. -/
def cfgCreateTV : SyncConfig := { create_if_missing := [".template-version"] }

/-- Configuration with a single pre-sync hook. -/
def cfgHooksOnly : SyncConfig := { pre_sync := ["touch .pre-sync-marker"] }

/-- Configuration with no interesting keys. -/
def cfgPlain : SyncConfig := {}

/-- Configuration whose `overwrite` list holds the glob `*.md`. -/
def cfgOwMd : SyncConfig := { overwrite := ["*.md"] }

/-- `yq` oracle for the demo worlds. -/
def demoParse : String → Option SyncConfig := fun s =>
  if s = "cfg-overwrite" then some cfgOverwriteG
  else if s = "cfg-merge" then some cfgMergeMk
  else if s = "cfg-excl-tv" then some cfgExclTV
  else if s = "cfg-create-tv" then some cfgCreateTV
  else if s = "cfg-hooks" then some cfgHooksOnly
  else if s = "cfg-plain" then some cfgPlain
  else if s = "cfg-ow-md" then some cfgOwMd
  else none

/-- Spec scenario for the overwrite category: local `.gitignore` holds
`custom`, upstream holds `# Updated`. -/
def stC1 : St :=
  ⟨[(".template-sync.yml", "cfg-overwrite"), (".gitignore", "custom")], [], [], [], []⟩

/-- Upstream snapshot for the overwrite scenario. -/
def repoC1 : RemoteRepo :=
  ⟨["v1.0.0"], "v1.0.0",
   [(".template-sync.yml", "cfg-overwrite"), (".gitignore", "# Updated")], true⟩

/-- Spec scenario for the merge category: local `Makefile` has a custom
target, upstream has a different one. -/
def stC2 : St :=
  ⟨[(".template-sync.yml", "cfg-merge"), ("Makefile", "all:\ncustom-target:")], [], [], [], []⟩

/-- Upstream snapshot for the merge scenario. -/
def repoC2 : RemoteRepo :=
  ⟨["v1.0.0"], "v1.0.0",
   [(".template-sync.yml", "cfg-merge"), ("Makefile", "all:\ntemplate-target:")], true⟩

/-- World whose local version marker reads `old` while the snapshot ships
a `.template-version` file matching an exclude pattern. -/
def stC3 : St :=
  ⟨[(".template-sync.yml", "cfg-excl-tv"), (".template-version", "old")], [], [], [], []⟩

/-- Snapshot shipping `.template-version`, excluded by its own config. -/
def repoC3 : RemoteRepo :=
  ⟨["v2.0.0"], "v2.0.0-5-gabc1234",
   [(".template-sync.yml", "cfg-excl-tv"), (".template-version", "old")], true⟩

/-- World with version marker `v1.0.0` for the update-check scenario. -/
def stC4 : St :=
  ⟨[(".template-sync.yml", "cfg-plain"), (".template-version", "v1.0.0")], [], [], [], []⟩

/-- Remote with a newer tag `v1.1.0`. -/
def repoAvail : RemoteRepo := ⟨["v1.1.0"], "v1.1.0", [], true⟩

/-- Remote whose only tag equals the local marker. -/
def repoSame : RemoteRepo := ⟨["v1.0.0"], "v1.0.0", [], true⟩

/-- World with a pre-sync hook configured. -/
def stC5 : St := ⟨[(".template-sync.yml", "cfg-hooks")], [], [], [], []⟩

/-- A remote whose clone fails. -/
def repoFail : RemoteRepo := ⟨[], "v1.0.0", [], false⟩

/-- World for the dry-run witness. -/
def stC6 : St :=
  ⟨[(".template-sync.yml", "cfg-hooks"), ("README.md", "hello")], [], [], [], []⟩

/-- Remote for the dry-run witness. -/
def repoC6 : RemoteRepo :=
  ⟨[], "v1.0.0", [(".template-sync.yml", "cfg-hooks"), ("README.md", "upstream")], true⟩

/-- World whose local version marker exists while the snapshot classifies
it `create_if_missing`. -/
def stC7 : St :=
  ⟨[(".template-sync.yml", "cfg-create-tv"), (".template-version", "old")], [], [], [], []⟩

/-- Snapshot shipping `.template-version`, classified `create_if_missing`
by its own config. -/
def repoC7 : RemoteRepo :=
  ⟨[], "v3.0.0-2-gdef5678",
   [(".template-sync.yml", "cfg-create-tv"), (".template-version", "new content")], true⟩

/-- World whose snapshot config holds the glob `*.md` under `overwrite`. -/
def stC8 : St :=
  ⟨[(".template-sync-tmp/.template-sync.yml", "cfg-ow-md")], [], [], [], []⟩

/-- World for the sync-then-check scenario. -/
def stC10 : St := ⟨[(".template-sync.yml", "cfg-plain")], [], [], [], []⟩

/-- Remote whose head is two commits past its newest tag, so
`git describe --tags --always` and the newest `ls-remote` tag differ. -/
def repoC10 : RemoteRepo :=
  ⟨["v1.0.0", "v1.1.0"], "v1.1.0-2-gabc1234", [(".template-sync.yml", "cfg-plain")], true⟩


/-- Configuration listing a documentation file under `create_if_missing`. -/
def cfgCreateDocs : SyncConfig := { create_if_missing := ["docs/new-example.md"] }

/-- Oracle mapping every configuration text to `cfgCreateDocs`. -/
def wParse7 : String → Option SyncConfig := fun _ => some cfgCreateDocs

/-- World where the documentation file already exists locally. -/
def stW7 : St := ⟨[(".template-sync.yml", "x"), ("docs/new-example.md", "mine")], [], [], [], []⟩

/-- Snapshot shipping a config and the documentation file. -/
def repoW7 : RemoteRepo :=
  ⟨[], "v9", [(".template-sync.yml", "x"), ("docs/new-example.md", "theirs")], true⟩

/-! ## Basic lemmas about the filesystem model -/

theorem fsLookup_fsWrite (fs : List (String × String)) (q c r : String) :
    fsLookup (fsWrite fs q c) r = if r = q then some c else fsLookup fs r := by
  induction fs with
  | nil =>
    by_cases h : r = q
    · simp [fsWrite, fsLookup, h]
    · have h2 : ¬ q = r := fun h2 => h h2.symm
      simp [fsWrite, fsLookup, h, h2]
  | cons e rest ih =>
    by_cases he : e.1 = q
    · by_cases hr : r = q
      · subst hr
        simp [fsWrite, fsLookup, he]
      · have hq : ¬ q = r := fun h2 => hr h2.symm
        have he2 : ¬ e.1 = r := fun h2 => hr (h2.symm.trans he)
        simp [fsWrite, fsLookup, he, hq, he2, hr]
    · by_cases hre : e.1 = r
      · have hrq : ¬ r = q := fun h2 => he (hre.trans h2)
        simp [fsWrite, fsLookup, he, hre, hrq]
      · simp [fsWrite, fsLookup, he, hre, ih]

theorem fsLookup_filterNot (fs : List (String × String)) (pf : String → Bool)
    (r : String) :
    fsLookup (fs.filter (fun e => !(pf e.1))) r =
      if pf r then none else fsLookup fs r := by
  induction fs with
  | nil => simp [fsLookup]
  | cons e rest ih =>
    by_cases he : e.1 = r
    · subst he
      cases h : pf e.1 <;> simp [fsLookup, h, ih]
    · cases h : pf e.1 <;> simp [fsLookup, h, he, ih]

theorem fsLookup_append (l₁ l₂ : List (String × String)) (q : String) :
    fsLookup (l₁ ++ l₂) q =
      match fsLookup l₁ q with
      | some v => some v
      | none => fsLookup l₂ q := by
  induction l₁ with
  | nil => simp [fsLookup]
  | cons e rest ih =>
    by_cases he : e.1 = q <;> simp [fsLookup, he, ih]

theorem fsLookup_eq_none (l : List (String × String)) (q : String)
    (h : ∀ e ∈ l, e.1 ≠ q) : fsLookup l q = none := by
  induction l with
  | nil => rfl
  | cons e rest ih =>
    have h1 : e.1 ≠ q := h e (List.mem_cons_self e rest)
    simp only [fsLookup, if_neg h1]
    exact ih (fun x hx => h x (List.mem_cons_of_mem e hx))

theorem listFront_append (l t : List Char) : listFront l (l ++ t) = true := by
  induction l with
  | nil => rfl
  | cons c cs ih => simp [listFront, ih]

theorem strFront_append (a b : String) : strFront a (a ++ b) = true := by
  unfold strFront
  rw [String.data_append]
  exact listFront_append a.data b.data

theorem joinPath_temp (x : String) :
    joinPath TEMP_DIR x = TEMP_DIR ++ "/" ++ x := by
  unfold joinPath
  rw [if_neg (by decide : ¬ TEMP_DIR = "")]

theorem scratchName_join (x : String) :
    scratchName (joinPath TEMP_DIR x) = true := by
  rw [joinPath_temp]
  unfold scratchName
  rw [if_pos (strFront_append (TEMP_DIR ++ "/") x)]

theorem mem_addDir (ds : List String) (x d : String) :
    d ∈ addDir ds x ↔ d ∈ ds ∨ d = x := by
  unfold addDir
  by_cases h : x ∈ ds
  · simp only [if_pos h]
    constructor
    · exact Or.inl
    · rintro (hd | rfl)
      · exact hd
      · exact h
  · simp [if_neg h]

theorem ne_of_scratchName (q k : String) (hq : scratchName q = false)
    (hk : scratchName k = true) : q ≠ k := by
  rintro rfl
  rw [hq] at hk
  exact Bool.false_ne_true hk

theorem scratchName_temp : scratchName TEMP_DIR = true := by decide

theorem scratchName_false_parts (q : String) (h : scratchName q = false) :
    strFront (TEMP_DIR ++ "/") q = false ∧ q ≠ TEMP_DIR := by
  unfold scratchName at h
  by_cases h1 : strFront (TEMP_DIR ++ "/") q = true
  · rw [if_pos h1] at h
    exact absurd h (by simp)
  · rw [if_neg h1] at h
    refine ⟨by simpa using h1, ?_⟩
    intro h2
    rw [h2] at h
    simp at h

theorem dirChars_append (l t : List Char) :
    ∃ u, dirChars (l ++ '/' :: t) = some (l ++ u) ∧
      (u = [] ∨ ∃ w, u = '/' :: w) := by
  induction l with
  | nil =>
    cases h : dirChars t with
    | some w =>
      refine ⟨'/' :: w, ?_, Or.inr ⟨w, rfl⟩⟩
      simp [dirChars, h]
    | none =>
      refine ⟨[], ?_, Or.inl rfl⟩
      simp [dirChars, h]
  | cons c cs ih =>
    obtain ⟨u, hu, hcase⟩ := ih
    refine ⟨u, ?_, hcase⟩
    simp only [List.cons_append, dirChars, List.append_eq, hu]

theorem scratchName_dirName (x : String) :
    scratchName (dirName (joinPath TEMP_DIR x)) = true := by
  rw [joinPath_temp]
  have hdata : (TEMP_DIR ++ "/" ++ x).data = TEMP_DIR.data ++ '/' :: x.data := by
    rw [String.data_append, String.data_append]
    rw [List.append_assoc]
    rfl
  obtain ⟨u, hu, hcase⟩ := dirChars_append TEMP_DIR.data x.data
  unfold dirName
  rw [hdata, hu]
  rcases hcase with rfl | ⟨w, rfl⟩
  · rw [List.append_nil]
    exact scratchName_temp
  · show scratchName (String.mk (TEMP_DIR.data ++ '/' :: w)) = true
    unfold scratchName
    have hsf : strFront (TEMP_DIR ++ "/") (String.mk (TEMP_DIR.data ++ '/' :: w)) = true := by
      unfold strFront
      have h2 : (TEMP_DIR ++ "/").data = TEMP_DIR.data ++ ['/'] := by
        rw [String.data_append]
      have h3 : (String.mk (TEMP_DIR.data ++ '/' :: w)).data =
          (TEMP_DIR.data ++ ['/']) ++ w := by
        simp
      rw [h2, h3]
      exact listFront_append _ _
    rw [if_pos hsf]

theorem string_append_cancel (a b c : String) (h : a ++ b = a ++ c) : b = c := by
  have hd := congrArg String.data h
  rw [String.data_append, String.data_append] at hd
  exact String.ext (List.append_cancel_left hd)

theorem fsLookup_map_front_none (l : List (String × String)) (q : String)
    (hq : strFront (TEMP_DIR ++ "/") q = false) :
    fsLookup (l.map (fun e => (TEMP_DIR ++ "/" ++ e.1, e.2))) q = none := by
  apply fsLookup_eq_none
  intro e he
  obtain ⟨e0, _he0, rfl⟩ := List.mem_map.mp he
  intro h
  dsimp only at h
  rw [← h] at hq
  rw [strFront_append] at hq
  exact Bool.true_eq_false.mp hq

theorem fsLookup_map_nested_none (l : List (String × String)) (z : String)
    (hl : ∀ e ∈ l, scratchName e.1 = false) :
    fsLookup (l.map (fun e => (TEMP_DIR ++ "/" ++ e.1, e.2)))
      (TEMP_DIR ++ "/" ++ (TEMP_DIR ++ "/" ++ z)) = none := by
  apply fsLookup_eq_none
  intro e he
  obtain ⟨e0, he0, rfl⟩ := List.mem_map.mp he
  intro h
  dsimp only at h
  have h2 : e0.1 = TEMP_DIR ++ "/" ++ z := string_append_cancel (TEMP_DIR ++ "/") _ _ h
  have h3 := hl e0 he0
  rw [h2] at h3
  unfold scratchName at h3
  rw [if_pos (strFront_append (TEMP_DIR ++ "/") z)] at h3
  simp at h3

theorem removeScratch_lookup_of_nonscratch (st : St) (q : String)
    (hq : scratchName q = false) :
    fsLookup (removeScratch st).files q = fsLookup st.files q := by
  unfold removeScratch
  simp only
  rw [fsLookup_filterNot st.files scratchName q, if_neg]
  rw [hq]
  simp

theorem removeScratch_lookup_of_scratch (st : St) (q : String)
    (hq : scratchName q = true) :
    fsLookup (removeScratch st).files q = none := by
  unfold removeScratch
  simp only
  rw [fsLookup_filterNot st.files scratchName q, if_pos hq]

theorem removeScratch_dirs (st : St) (d : String) (hd : scratchName d = false) :
    (d ∈ (removeScratch st).dirs ↔ d ∈ st.dirs) := by
  unfold removeScratch
  simp only [List.mem_filter]
  constructor
  · exact fun h => h.1
  · intro h
    exact ⟨h, by rw [hd]; rfl⟩

theorem scratchName_concat (w : String) :
    scratchName (TEMP_DIR ++ "/" ++ w) = true := by
  unfold scratchName
  rw [if_pos (strFront_append (TEMP_DIR ++ "/") w)]

theorem hookFold_eq (dry : Bool) (hs : List String) (acc : St) :
    hs.foldl (fun a h =>
        if dry then { a with logs := a.logs ++ ["[DRY RUN] Would run: " ++ h] }
        else { a with hooksRun := a.hooksRun ++ [h] }) acc =
      { acc with
          hooksRun := acc.hooksRun ++ (if dry then [] else hs),
          logs := acc.logs ++
            (if dry then hs.map (fun h => "[DRY RUN] Would run: " ++ h) else []) } := by
  induction hs generalizing acc with
  | nil => cases dry <;> simp
  | cons h hs ih =>
    rw [List.foldl_cons, ih]
    cases dry <;> simp

theorem run_hooks_eq (p : String → Option SyncConfig) (dry : Bool)
    (sel : SyncConfig → List String) (label : String) (st : St) :
    run_hooks p dry sel label st =
      match hookLines (yqList p st SYNC_CONFIG sel) with
      | [] => st
      | hs =>
        { st with
            hooksRun := st.hooksRun ++ (if dry then [] else hs),
            logs := (st.logs ++ ["Running " ++ label ++ " hooks..."]) ++
              (if dry then hs.map (fun h => "[DRY RUN] Would run: " ++ h) else []) } := by
  unfold run_hooks
  cases hh : hookLines (yqList p st SYNC_CONFIG sel) with
  | nil => rfl
  | cons h hs => exact hookFold_eq dry (h :: hs) _

theorem backup_file_files_frame (b f : String) (st : St) (q : String)
    (hq : scratchName q = false) :
    fsLookup (backup_file b TEMP_DIR f st).files q = fsLookup st.files q := by
  unfold backup_file
  cases hsrc : fsLookup st.files (joinPath TEMP_DIR f) with
  | none => rfl
  | some c =>
    dsimp only
    rw [fsLookup_fsWrite]
    rw [if_neg (ne_of_scratchName q _ hq (scratchName_join _))]

theorem backup_file_dirs (b f : String) (st : St) (d : String)
    (hd : scratchName d = false) :
    (d ∈ (backup_file b TEMP_DIR f st).dirs ↔ d ∈ st.dirs) := by
  unfold backup_file
  cases hsrc : fsLookup st.files (joinPath TEMP_DIR f) with
  | none => exact Iff.rfl
  | some c =>
    dsimp only
    rw [mem_addDir]
    constructor
    · rintro (h | rfl)
      · exact h
      · exact absurd (scratchName_dirName _) (by rw [hd]; simp)
    · exact Or.inl

theorem backup_file_hooksRun (b f : String) (st : St) :
    (backup_file b TEMP_DIR f st).hooksRun = st.hooksRun := by
  unfold backup_file
  cases fsLookup st.files (joinPath TEMP_DIR f) <;> rfl

theorem backup_file_applied (b f : String) (st : St) :
    (backup_file b TEMP_DIR f st).applied = st.applied := by
  unfold backup_file
  cases fsLookup st.files (joinPath TEMP_DIR f) <;> rfl

theorem backup_file_logs (b f : String) (st : St) :
    ∃ t, (backup_file b TEMP_DIR f st).logs = st.logs ++ t := by
  unfold backup_file
  cases fsLookup st.files (joinPath TEMP_DIR f) with
  | none => exact ⟨[], by simp⟩
  | some c => exact ⟨["Backed up " ++ f], rfl⟩

theorem sync_file_noSource (b : String) (dry : Bool) (f s : String) (st : St)
    (h : fsLookup st.files (joinPath TEMP_DIR (TEMP_DIR ++ "/" ++ f)) = none) :
    sync_file b dry TEMP_DIR f s st = st := by
  simp only [sync_file, h]

theorem sync_file_files_frame (b : String) (dry : Bool) (f s : String) (st : St)
    (q : String) (hq : scratchName q = false) :
    fsLookup (sync_file b dry TEMP_DIR f s st).files q = fsLookup st.files q := by
  have hq1 : ∀ x : String, q ≠ joinPath TEMP_DIR x :=
    fun x => ne_of_scratchName q _ hq (scratchName_join x)
  simp only [sync_file]
  cases hsrc : fsLookup st.files (joinPath TEMP_DIR (TEMP_DIR ++ "/" ++ f)) with
  | none => rfl
  | some src =>
    dsimp only
    by_cases h1 : s = "overwrite"
    · rw [if_pos h1]
      by_cases hdry : dry = true
      · rw [if_pos hdry]
      · rw [if_neg hdry]
        dsimp only
        rw [fsLookup_fsWrite, if_neg (hq1 f)]
        exact backup_file_files_frame b f st q hq
    · rw [if_neg h1]
      by_cases h2 : s = "merge"
      · rw [if_pos h2]
        cases hdest : fsLookup st.files (joinPath TEMP_DIR f) with
        | some destContent =>
          dsimp only
          by_cases heq : destContent = src
          · rw [if_pos heq]
          · rw [if_neg heq]
            by_cases hdry : dry = true
            · rw [if_pos hdry]
            · rw [if_neg hdry]
              dsimp only
              rw [fsLookup_fsWrite, if_neg (hq1 (f ++ ".merge"))]
              exact backup_file_files_frame b f st q hq
        | none =>
          dsimp only
          by_cases hdry : dry = true
          · rw [if_pos hdry]
          · rw [if_neg hdry]
            dsimp only
            rw [fsLookup_fsWrite, if_neg (hq1 f)]
      · rw [if_neg h2]
        by_cases h3 : s = "create_if_missing"
        · rw [if_pos h3]
          cases hdest : fsLookup st.files (joinPath TEMP_DIR f) with
          | none =>
            dsimp only
            by_cases hdry : dry = true
            · rw [if_pos hdry]
            · rw [if_neg hdry]
              dsimp only
              rw [fsLookup_fsWrite, if_neg (hq1 f)]
          | some _ => dsimp only
        · rw [if_neg h3]

theorem sync_file_dry (b : String) (f s : String) (st : St) :
    ∃ t, sync_file b true TEMP_DIR f s st = { st with logs := st.logs ++ t } := by
  simp only [sync_file]
  cases hsrc : fsLookup st.files (joinPath TEMP_DIR (TEMP_DIR ++ "/" ++ f)) with
  | none => exact ⟨[], by simp⟩
  | some src =>
    dsimp only
    by_cases h1 : s = "overwrite"
    · rw [if_pos h1]
      exact ⟨_, rfl⟩
    · rw [if_neg h1]
      by_cases h2 : s = "merge"
      · rw [if_pos h2]
        cases hdest : fsLookup st.files (joinPath TEMP_DIR f) with
        | some destContent =>
          dsimp only
          by_cases heq : destContent = src
          · rw [if_pos heq]
            exact ⟨[], by simp⟩
          · rw [if_neg heq]
            exact ⟨_, rfl⟩
        | none =>
          dsimp only
          exact ⟨_, rfl⟩
      · rw [if_neg h2]
        by_cases h3 : s = "create_if_missing"
        · rw [if_pos h3]
          cases hdest : fsLookup st.files (joinPath TEMP_DIR f) with
          | none =>
            dsimp only
            exact ⟨_, rfl⟩
          | some _ =>
            dsimp only
            exact ⟨[], by simp⟩
        · rw [if_neg h3]
          exact ⟨[], by simp⟩

theorem sync_file_logs (b : String) (dry : Bool) (f s : String) (st : St) :
    ∃ t, (sync_file b dry TEMP_DIR f s st).logs = st.logs ++ t := by
  simp only [sync_file]
  cases hsrc : fsLookup st.files (joinPath TEMP_DIR (TEMP_DIR ++ "/" ++ f)) with
  | none => exact ⟨[], by simp⟩
  | some src =>
    dsimp only
    by_cases h1 : s = "overwrite"
    · rw [if_pos h1]
      by_cases hdry : dry = true
      · rw [if_pos hdry]
        exact ⟨_, rfl⟩
      · rw [if_neg hdry]
        obtain ⟨t, ht⟩ := backup_file_logs b f st
        dsimp only
        exact ⟨t ++ ["Updated " ++ f ++ " (overwrite)"], by rw [ht, List.append_assoc]⟩
    · rw [if_neg h1]
      by_cases h2 : s = "merge"
      · rw [if_pos h2]
        cases hdest : fsLookup st.files (joinPath TEMP_DIR f) with
        | some destContent =>
          dsimp only
          by_cases heq : destContent = src
          · rw [if_pos heq]
            exact ⟨[], by simp⟩
          · rw [if_neg heq]
            by_cases hdry : dry = true
            · rw [if_pos hdry]
              exact ⟨_, rfl⟩
            · rw [if_neg hdry]
              obtain ⟨t, ht⟩ := backup_file_logs b f st
              dsimp only
              exact ⟨t ++ ["Created " ++ f ++ ".merge - manual merge required"],
                by rw [ht, List.append_assoc]⟩
        | none =>
          dsimp only
          by_cases hdry : dry = true
          · rw [if_pos hdry]
            exact ⟨_, rfl⟩
          · rw [if_neg hdry]
            exact ⟨_, rfl⟩
      · rw [if_neg h2]
        by_cases h3 : s = "create_if_missing"
        · rw [if_pos h3]
          cases hdest : fsLookup st.files (joinPath TEMP_DIR f) with
          | none =>
            dsimp only
            by_cases hdry : dry = true
            · rw [if_pos hdry]
              exact ⟨_, rfl⟩
            · rw [if_neg hdry]
              exact ⟨_, rfl⟩
          | some _ =>
            dsimp only
            exact ⟨[], by simp⟩
        · rw [if_neg h3]
          exact ⟨[], by simp⟩

theorem processOne_files_frame (p : String → Option SyncConfig) (b : String)
    (dry : Bool) (st : St) (f q : String) (hq : scratchName q = false) :
    fsLookup (processOne p b dry st f).files q = fsLookup st.files q := by
  unfold processOne
  by_cases h1 : strFront ".git/" f = true
  · rw [if_pos h1]
  · rw [if_neg h1]
    by_cases h2 : should_sync_file p st TEMP_DIR f = true
    · rw [if_pos h2]
      dsimp only
      by_cases h3 : get_sync_strategy p st TEMP_DIR f = "skip"
      · rw [if_pos h3]
      · rw [if_neg h3]
        exact sync_file_files_frame b dry f _ st q hq
    · rw [if_neg h2]

theorem processOne_dry (p : String → Option SyncConfig) (b : String) (st : St)
    (f : String) :
    ∃ t, processOne p b true st f = { st with logs := st.logs ++ t } := by
  unfold processOne
  by_cases h1 : strFront ".git/" f = true
  · rw [if_pos h1]
    exact ⟨[], by simp⟩
  · rw [if_neg h1]
    by_cases h2 : should_sync_file p st TEMP_DIR f = true
    · rw [if_pos h2]
      dsimp only
      by_cases h3 : get_sync_strategy p st TEMP_DIR f = "skip"
      · rw [if_pos h3]
        exact ⟨[], by simp⟩
      · rw [if_neg h3]
        exact sync_file_dry b f _ st
    · rw [if_neg h2]
      exact ⟨[], by simp⟩

theorem processOne_logs (p : String → Option SyncConfig) (b : String)
    (dry : Bool) (st : St) (f : String) :
    ∃ t, (processOne p b dry st f).logs = st.logs ++ t := by
  unfold processOne
  by_cases h1 : strFront ".git/" f = true
  · rw [if_pos h1]
    exact ⟨[], by simp⟩
  · rw [if_neg h1]
    by_cases h2 : should_sync_file p st TEMP_DIR f = true
    · rw [if_pos h2]
      dsimp only
      by_cases h3 : get_sync_strategy p st TEMP_DIR f = "skip"
      · rw [if_pos h3]
        exact ⟨[], by simp⟩
      · rw [if_neg h3]
        exact sync_file_logs b dry f _ st
    · rw [if_neg h2]
      exact ⟨[], by simp⟩

theorem foldl_processOne_files_frame (p : String → Option SyncConfig)
    (b : String) (dry : Bool) (fs : List String) (st : St) (q : String)
    (hq : scratchName q = false) :
    fsLookup ((fs.foldl (processOne p b dry) st).files) q = fsLookup st.files q := by
  induction fs generalizing st with
  | nil => rfl
  | cons f fs ih =>
    rw [List.foldl_cons]
    rw [ih (processOne p b dry st f)]
    exact processOne_files_frame p b dry st f q hq

theorem foldl_processOne_dry (p : String → Option SyncConfig) (b : String)
    (fs : List String) (st : St) :
    ∃ t, fs.foldl (processOne p b true) st = { st with logs := st.logs ++ t } := by
  induction fs generalizing st with
  | nil => exact ⟨[], by simp⟩
  | cons f fs ih =>
    rw [List.foldl_cons]
    obtain ⟨t1, h1⟩ := processOne_dry p b st f
    obtain ⟨t2, h2⟩ := ih (processOne p b true st f)
    refine ⟨t1 ++ t2, ?_⟩
    rw [h2, h1]
    simp

theorem foldl_processOne_logs (p : String → Option SyncConfig) (b : String)
    (dry : Bool) (fs : List String) (st : St) :
    ∃ t, (fs.foldl (processOne p b dry) st).logs = st.logs ++ t := by
  induction fs generalizing st with
  | nil => exact ⟨[], by simp⟩
  | cons f fs ih =>
    rw [List.foldl_cons]
    obtain ⟨t1, h1⟩ := processOne_logs p b dry st f
    obtain ⟨t2, h2⟩ := ih (processOne p b dry st f)
    exact ⟨t1 ++ t2, by rw [h2, h1, List.append_assoc]⟩

theorem sync_files_files_frame (p : String → Option SyncConfig) (b : String)
    (dry : Bool) (st : St) (q : String) (hq : scratchName q = false) :
    fsLookup ((sync_files p b dry st).files) q = fsLookup st.files q := by
  unfold sync_files
  rw [foldl_processOne_files_frame p b dry _ _ q hq]

theorem sync_files_dry (p : String → Option SyncConfig) (b : String) (st : St) :
    ∃ t, sync_files p b true st = { st with logs := st.logs ++ t } := by
  unfold sync_files
  obtain ⟨t, ht⟩ := foldl_processOne_dry p b (enumFiles st)
    { st with logs := st.logs ++ ["Processing template files..."] }
  refine ⟨["Processing template files..."] ++ t, ?_⟩
  rw [ht]
  simp

theorem sync_files_logs (p : String → Option SyncConfig) (b : String)
    (dry : Bool) (st : St) :
    ∃ t, (sync_files p b dry st).logs = st.logs ++ t := by
  unfold sync_files
  obtain ⟨t, ht⟩ := foldl_processOne_logs p b dry (enumFiles st)
    { st with logs := st.logs ++ ["Processing template files..."] }
  exact ⟨["Processing template files..."] ++ t, by rw [ht]; simp⟩

theorem processOne_noNested (p : String → Option SyncConfig) (b : String)
    (dry : Bool) (st : St) (f : String)
    (h : ∀ z, fsLookup st.files (joinPath TEMP_DIR (TEMP_DIR ++ "/" ++ z)) = none) :
    processOne p b dry st f = st := by
  unfold processOne
  by_cases h1 : strFront ".git/" f = true
  · rw [if_pos h1]
  · rw [if_neg h1]
    by_cases h2 : should_sync_file p st TEMP_DIR f = true
    · rw [if_pos h2]
      dsimp only
      by_cases h3 : get_sync_strategy p st TEMP_DIR f = "skip"
      · rw [if_pos h3]
      · rw [if_neg h3]
        exact sync_file_noSource b dry f _ st (h f)
    · rw [if_neg h2]

theorem foldl_processOne_noNested (p : String → Option SyncConfig) (b : String)
    (dry : Bool) (fs : List String) (st : St)
    (h : ∀ z, fsLookup st.files (joinPath TEMP_DIR (TEMP_DIR ++ "/" ++ z)) = none) :
    fs.foldl (processOne p b dry) st = st := by
  induction fs with
  | nil => rfl
  | cons f fs ih =>
    rw [List.foldl_cons, processOne_noNested p b dry st f h, ih]

theorem sync_files_noNested (p : String → Option SyncConfig) (b : String)
    (dry : Bool) (st : St)
    (h : ∀ z, fsLookup st.files (joinPath TEMP_DIR (TEMP_DIR ++ "/" ++ z)) = none) :
    sync_files p b dry st = { st with logs := st.logs ++ ["Processing template files..."] } := by
  unfold sync_files
  exact foldl_processOne_noNested p b dry _ _ h

theorem addSnapshot_lookup_nonscratch (st : St) (repo : RemoteRepo) (q : String)
    (hq : scratchName q = false) :
    fsLookup (addSnapshot st repo).files q = fsLookup st.files q := by
  unfold addSnapshot
  dsimp only
  rw [fsLookup_append]
  cases h : fsLookup st.files q with
  | some v => rfl
  | none =>
    dsimp only
    exact fsLookup_map_front_none repo.files q (scratchName_false_parts q hq).1

theorem addSnapshot_nested_none (st : St) (repo : RemoteRepo) (z : String)
    (hrepo : ∀ e ∈ repo.files, scratchName e.1 = false)
    (hst : fsLookup st.files (joinPath TEMP_DIR (TEMP_DIR ++ "/" ++ z)) = none) :
    fsLookup (addSnapshot st repo).files (joinPath TEMP_DIR (TEMP_DIR ++ "/" ++ z)) = none := by
  unfold addSnapshot
  dsimp only
  rw [fsLookup_append, hst]
  dsimp only
  rw [joinPath_temp]
  exact fsLookup_map_nested_none repo.files z hrepo

theorem removeScratch_nested_none (st : St) (z : String) :
    fsLookup (removeScratch st).files (joinPath TEMP_DIR (TEMP_DIR ++ "/" ++ z)) = none := by
  apply removeScratch_lookup_of_scratch
  rw [joinPath_temp]
  exact scratchName_concat (TEMP_DIR ++ "/" ++ z)

theorem run_hooks_files (p : String → Option SyncConfig) (dry : Bool)
    (sel : SyncConfig → List String) (label : String) (st : St) :
    (run_hooks p dry sel label st).files = st.files := by
  rw [run_hooks_eq]
  cases hookLines (yqList p st SYNC_CONFIG sel) <;> rfl

theorem run_hooks_dirs (p : String → Option SyncConfig) (dry : Bool)
    (sel : SyncConfig → List String) (label : String) (st : St) :
    (run_hooks p dry sel label st).dirs = st.dirs := by
  rw [run_hooks_eq]
  cases hookLines (yqList p st SYNC_CONFIG sel) <;> rfl

theorem run_hooks_applied (p : String → Option SyncConfig) (dry : Bool)
    (sel : SyncConfig → List String) (label : String) (st : St) :
    (run_hooks p dry sel label st).applied = st.applied := by
  rw [run_hooks_eq]
  cases hookLines (yqList p st SYNC_CONFIG sel) <;> rfl

theorem run_hooks_hooksRun (p : String → Option SyncConfig) (dry : Bool)
    (sel : SyncConfig → List String) (label : String) (st : St) :
    (run_hooks p dry sel label st).hooksRun =
      st.hooksRun ++ (if dry then [] else hookLines (yqList p st SYNC_CONFIG sel)) := by
  rw [run_hooks_eq]
  cases hh : hookLines (yqList p st SYNC_CONFIG sel) with
  | nil => cases dry <;> simp
  | cons h hs => rfl

theorem run_hooks_logs (p : String → Option SyncConfig) (dry : Bool)
    (sel : SyncConfig → List String) (label : String) (st : St) :
    ∃ t, (run_hooks p dry sel label st).logs = st.logs ++ t := by
  rw [run_hooks_eq]
  cases hh : hookLines (yqList p st SYNC_CONFIG sel) with
  | nil => exact ⟨[], by simp⟩
  | cons h hs =>
    dsimp only
    exact ⟨_, List.append_assoc _ _ _⟩

theorem run_hooks_dry_mem (p : String → Option SyncConfig)
    (sel : SyncConfig → List String) (label : String) (st : St) (h : String)
    (hh : h ∈ hookLines (yqList p st SYNC_CONFIG sel)) :
    ("[DRY RUN] Would run: " ++ h) ∈ (run_hooks p true sel label st).logs := by
  rw [run_hooks_eq]
  cases hl : hookLines (yqList p st SYNC_CONFIG sel) with
  | nil =>
    rw [hl] at hh
    cases hh
  | cons a hs =>
    rw [hl] at hh
    dsimp only
    rw [if_pos rfl]
    exact List.mem_append_right _ (List.mem_map_of_mem _ hh)

theorem removeScratch_hooksRun (st : St) : (removeScratch st).hooksRun = st.hooksRun := rfl

theorem removeScratch_logs (st : St) : (removeScratch st).logs = st.logs := rfl

theorem removeScratch_applied (st : St) : (removeScratch st).applied = st.applied := rfl

theorem removeScratch_dirs_def (st : St) :
    (removeScratch st).dirs = st.dirs.filter (fun d => !(scratchName d)) := rfl

theorem addSnapshot_hooksRun (st : St) (repo : RemoteRepo) :
    (addSnapshot st repo).hooksRun = st.hooksRun := rfl

theorem addSnapshot_logs (st : St) (repo : RemoteRepo) :
    (addSnapshot st repo).logs = st.logs := rfl

theorem addSnapshot_applied (st : St) (repo : RemoteRepo) :
    (addSnapshot st repo).applied = st.applied := rfl

theorem addSnapshot_dirs_mem (st : St) (repo : RemoteRepo) (d : String)
    (hd : scratchName d = false) :
    (d ∈ (addSnapshot st repo).dirs ↔ d ∈ st.dirs) := by
  unfold addSnapshot
  dsimp only
  rw [mem_addDir]
  constructor
  · rintro (h | rfl)
    · exact h
    · exact absurd scratchName_temp (by rw [hd]; simp)
  · exact Or.inl

theorem preClone_files (p : String → Option SyncConfig) (b : String) (dry : Bool)
    (st : St) (q : String) (hq : scratchName q = false) :
    fsLookup (preClone p b dry st).files q = fsLookup st.files q := by
  simp only [preClone]
  rw [removeScratch_lookup_of_nonscratch _ _ hq]
  show fsLookup (run_hooks p dry (fun c => c.pre_sync) "pre_sync" _).files q = _
  rw [run_hooks_files]
  cases dry <;> rfl

theorem preClone_applied (p : String → Option SyncConfig) (b : String) (dry : Bool)
    (st : St) : (preClone p b dry st).applied = st.applied := by
  simp only [preClone]
  rw [removeScratch_applied]
  show (run_hooks p dry (fun c => c.pre_sync) "pre_sync" _).applied = _
  rw [run_hooks_applied]
  cases dry <;> rfl

theorem preClone_hooksRun (p : String → Option SyncConfig) (b : String) (dry : Bool)
    (st : St) :
    (preClone p b dry st).hooksRun = st.hooksRun ++
      (if dry then [] else hookLines (yqList p st SYNC_CONFIG (fun c => c.pre_sync))) := by
  simp only [preClone]
  rw [removeScratch_hooksRun]
  show (run_hooks p dry (fun c => c.pre_sync) "pre_sync" _).hooksRun = _
  rw [run_hooks_hooksRun]
  cases dry <;> rfl

theorem preClone_dirs_dry (p : String → Option SyncConfig) (b : String)
    (st : St) (d : String) (hd : scratchName d = false) :
    (d ∈ (preClone p b true st).dirs ↔ d ∈ st.dirs) := by
  simp only [preClone]
  rw [removeScratch_dirs_def]
  rw [List.mem_filter]
  constructor
  · intro h
    have h1 : d ∈ (run_hooks p true (fun c => c.pre_sync) "pre_sync" st).dirs := h.1
    rw [run_hooks_dirs] at h1
    exact h1
  · intro h
    refine ⟨?_, by rw [hd]; rfl⟩
    show d ∈ (run_hooks p true (fun c => c.pre_sync) "pre_sync" st).dirs
    rw [run_hooks_dirs]
    exact h

theorem preClone_dirs_false (p : String → Option SyncConfig) (b : String)
    (st : St) (d : String) (hd : scratchName d = false) :
    (d ∈ (preClone p b false st).dirs ↔ d ∈ addDir st.dirs b) := by
  simp only [preClone]
  rw [removeScratch_dirs_def]
  rw [List.mem_filter]
  constructor
  · intro h
    have h1 : d ∈ (run_hooks p false (fun c => c.pre_sync) "pre_sync"
        ({ st with dirs := addDir st.dirs b } : St)).dirs := h.1
    rw [run_hooks_dirs] at h1
    exact h1
  · intro h
    refine ⟨?_, by rw [hd]; rfl⟩
    show d ∈ (run_hooks p false (fun c => c.pre_sync) "pre_sync"
        ({ st with dirs := addDir st.dirs b } : St)).dirs
    rw [run_hooks_dirs]
    exact h

theorem preClone_mem_backupDir (p : String → Option SyncConfig) (b : String)
    (st : St) (hb : scratchName b = false) :
    b ∈ (preClone p b false st).dirs := by
  rw [preClone_dirs_false p b st b hb, mem_addDir]
  exact Or.inr rfl

theorem preClone_dry_mem (p : String → Option SyncConfig) (b : String) (st : St)
    (h : String) (hh : h ∈ hookLines (yqList p st SYNC_CONFIG (fun c => c.pre_sync))) :
    ("[DRY RUN] Would run: " ++ h) ∈ (preClone p b true st).logs := by
  simp only [preClone]
  rw [removeScratch_logs]
  show ("[DRY RUN] Would run: " ++ h) ∈
    (run_hooks p true (fun c => c.pre_sync) "pre_sync" st).logs ++
      ["Cloning template repository..."]
  exact List.mem_append_left _ (run_hooks_dry_mem p _ "pre_sync" st h hh)

theorem preClone_nested_none (p : String → Option SyncConfig) (b : String)
    (dry : Bool) (st : St) (z : String) :
    fsLookup (preClone p b dry st).files (joinPath TEMP_DIR (TEMP_DIR ++ "/" ++ z)) = none := by
  simp only [preClone]
  exact removeScratch_nested_none _ z

theorem afterClone_dry (p : String → Option SyncConfig) (repo : RemoteRepo)
    (b : String) (st : St) :
    (∀ q, scratchName q = false →
      fsLookup (afterClone p repo b true st).files q = fsLookup st.files q) ∧
    (∀ d, scratchName d = false → (d ∈ (afterClone p repo b true st).dirs ↔ d ∈ st.dirs)) ∧
    (afterClone p repo b true st).hooksRun = st.hooksRun ∧
    (afterClone p repo b true st).applied = st.applied ∧
    (∃ t, (afterClone p repo b true st).logs = st.logs ++ t) := by
  obtain ⟨tE, hE⟩ := sync_files_dry p b st
  refine ⟨?_, ?_, ?_, ?_, ?_⟩
  · intro q hq
    show fsLookup (removeScratch (run_hooks p true (fun c => c.post_sync) "post_sync"
      (sync_files p b true st))).files q = _
    rw [removeScratch_lookup_of_nonscratch _ _ hq, run_hooks_files, hE]
  · intro d hd
    show d ∈ (removeScratch (run_hooks p true (fun c => c.post_sync) "post_sync"
      (sync_files p b true st))).dirs ↔ _
    rw [removeScratch_dirs_def, List.mem_filter]
    constructor
    · intro h
      have h1 := h.1
      rw [run_hooks_dirs, hE] at h1
      exact h1
    · intro h
      refine ⟨?_, by rw [hd]; rfl⟩
      rw [run_hooks_dirs, hE]
      exact h
  · show (removeScratch (run_hooks p true (fun c => c.post_sync) "post_sync"
      (sync_files p b true st))).hooksRun = _
    rw [removeScratch_hooksRun, run_hooks_hooksRun, hE]
    simp
  · show (removeScratch (run_hooks p true (fun c => c.post_sync) "post_sync"
      (sync_files p b true st))).applied = _
    rw [removeScratch_applied, run_hooks_applied, hE]
  · obtain ⟨tF, hF⟩ := run_hooks_logs p true (fun c => c.post_sync) "post_sync"
      (sync_files p b true st)
    refine ⟨tE ++ tF ++ ["Dry run complete - no changes were made"], ?_⟩
    show (removeScratch (run_hooks p true (fun c => c.post_sync) "post_sync"
      (sync_files p b true st))).logs ++ ["Dry run complete - no changes were made"] = _
    rw [removeScratch_logs, hF, hE]
    show (st.logs ++ tE) ++ tF ++ _ = _
    simp

theorem afterClone_false_noNested (p : String → Option SyncConfig) (repo : RemoteRepo)
    (b : String) (st : St)
    (hn : ∀ z, fsLookup st.files (joinPath TEMP_DIR (TEMP_DIR ++ "/" ++ z)) = none) :
    (∀ q, scratchName q = false → q ≠ TEMPLATE_VERSION_FILE →
      fsLookup (afterClone p repo b false st).files q = fsLookup st.files q) ∧
    (afterClone p repo b false st).applied = st.applied := by
  have hE := sync_files_noNested p b false st hn
  constructor
  · intro q hq hqv
    show fsLookup (removeScratch (run_hooks p false (fun c => c.post_sync) "post_sync"
      ({ sync_files p b false st with
          files := fsWrite (sync_files p b false st).files TEMPLATE_VERSION_FILE repo.headDescribe,
          logs := (sync_files p b false st).logs ++
            ["Updated template version to " ++ repo.headDescribe] } : St))).files q = _
    rw [removeScratch_lookup_of_nonscratch _ _ hq, run_hooks_files]
    show fsLookup (fsWrite (sync_files p b false st).files TEMPLATE_VERSION_FILE
      repo.headDescribe) q = _
    rw [fsLookup_fsWrite, if_neg hqv, hE]
  · show (removeScratch (run_hooks p false (fun c => c.post_sync) "post_sync"
      ({ sync_files p b false st with
          files := fsWrite (sync_files p b false st).files TEMPLATE_VERSION_FILE repo.headDescribe,
          logs := (sync_files p b false st).logs ++
            ["Updated template version to " ++ repo.headDescribe] } : St))).applied = _
    rw [removeScratch_applied, run_hooks_applied]
    show (sync_files p b false st).applied = _
    rw [hE]

theorem afterClone_false_version (p : String → Option SyncConfig) (repo : RemoteRepo)
    (b : String) (st : St) :
    fsLookup (afterClone p repo b false st).files TEMPLATE_VERSION_FILE =
      some repo.headDescribe := by
  show fsLookup (removeScratch (run_hooks p false (fun c => c.post_sync) "post_sync"
    ({ sync_files p b false st with
        files := fsWrite (sync_files p b false st).files TEMPLATE_VERSION_FILE repo.headDescribe,
        logs := (sync_files p b false st).logs ++
          ["Updated template version to " ++ repo.headDescribe] } : St))).files
    TEMPLATE_VERSION_FILE = _
  rw [removeScratch_lookup_of_nonscratch _ _ (by decide), run_hooks_files]
  show fsLookup (fsWrite (sync_files p b false st).files TEMPLATE_VERSION_FILE
    repo.headDescribe) TEMPLATE_VERSION_FILE = _
  rw [fsLookup_fsWrite, if_pos rfl]

theorem afterClone_logs (p : String → Option SyncConfig) (repo : RemoteRepo)
    (b : String) (dry : Bool) (st : St) :
    ∃ t, (afterClone p repo b dry st).logs = st.logs ++ t := by
  obtain ⟨tE, hEl⟩ := sync_files_logs p b dry st
  cases dry with
  | true =>
    obtain ⟨tF, hF⟩ := run_hooks_logs p true (fun c => c.post_sync) "post_sync"
      (sync_files p b true st)
    refine ⟨tE ++ tF ++ ["Dry run complete - no changes were made"], ?_⟩
    show (removeScratch (run_hooks p true (fun c => c.post_sync) "post_sync"
      (sync_files p b true st))).logs ++ ["Dry run complete - no changes were made"] = _
    rw [removeScratch_logs, hF, hEl]
    simp
  | false =>
    obtain ⟨tF, hF⟩ := run_hooks_logs p false (fun c => c.post_sync) "post_sync"
      ({ sync_files p b false st with
          files := fsWrite (sync_files p b false st).files TEMPLATE_VERSION_FILE repo.headDescribe,
          logs := (sync_files p b false st).logs ++
            ["Updated template version to " ++ repo.headDescribe] } : St)
    refine ⟨tE ++ ["Updated template version to " ++ repo.headDescribe] ++ tF ++
      ["Sync complete!"], ?_⟩
    show (removeScratch (run_hooks p false (fun c => c.post_sync) "post_sync"
      ({ sync_files p b false st with
          files := fsWrite (sync_files p b false st).files TEMPLATE_VERSION_FILE repo.headDescribe,
          logs := (sync_files p b false st).logs ++
            ["Updated template version to " ++ repo.headDescribe] } : St))).logs ++
      ["Sync complete!"] = _
    rw [removeScratch_logs, hF]
    show ((sync_files p b false st).logs ++
      ["Updated template version to " ++ repo.headDescribe]) ++ tF ++ _ = _
    rw [hEl]
    simp

theorem mainSyncPath_eq_fail (p : String → Option SyncConfig) (repo : RemoteRepo)
    (b : String) (dry : Bool) (st : St) (hc : repo.cloneOk = false) :
    mainSyncPath p repo b dry st = ⟨128, preClone p b dry st⟩ := by
  unfold mainSyncPath
  rw [hc]
  rfl

theorem mainSyncPath_eq_ok (p : String → Option SyncConfig) (repo : RemoteRepo)
    (b : String) (dry : Bool) (st : St) (hc : repo.cloneOk = true) :
    mainSyncPath p repo b dry st =
      ⟨0, afterClone p repo b dry (addSnapshot (preClone p b dry st) repo)⟩ := by
  unfold mainSyncPath
  rw [hc]
  rfl

theorem runMain_eq_none (p : String → Option SyncConfig) (repo : RemoteRepo)
    (b : String) (dry force chk confirm : Bool) (st : St)
    (hcfg : (fsLookup st.files SYNC_CONFIG).bind p = none) :
    runMain p repo b dry force chk confirm st =
      ⟨1, { st with logs := (st.logs ++ ["Template Sync Tool"]) ++
        ["Configuration file " ++ SYNC_CONFIG ++ " not found!"] }⟩ := by
  simp only [runMain]
  rw [show (fsLookup ({ st with logs := st.logs ++ ["Template Sync Tool"] } : St).files
    SYNC_CONFIG).bind p = none from hcfg]

theorem runMain_eq_cancel (p : String → Option SyncConfig) (repo : RemoteRepo)
    (b : String) (dry force confirm : Bool) (st : St) (cfg : SyncConfig)
    (hcfg : (fsLookup st.files SYNC_CONFIG).bind p = some cfg)
    (hcond : (!force && !dry && !confirm) = true) :
    runMain p repo b dry force false confirm st =
      ⟨0, { st with logs := (st.logs ++ ["Template Sync Tool"]) ++ ["Sync cancelled"] }⟩ := by
  simp only [runMain]
  rw [show (fsLookup ({ st with logs := st.logs ++ ["Template Sync Tool"] } : St).files
    SYNC_CONFIG).bind p = some cfg from hcfg]
  dsimp only
  rw [hcond]
  rfl

theorem runMain_eq_sync (p : String → Option SyncConfig) (repo : RemoteRepo)
    (b : String) (dry force confirm : Bool) (st : St) (cfg : SyncConfig)
    (hcfg : (fsLookup st.files SYNC_CONFIG).bind p = some cfg)
    (hcond : (!force && !dry && !confirm) = false) :
    runMain p repo b dry force false confirm st =
      mainSyncPath p repo b dry { st with logs := st.logs ++ ["Template Sync Tool"] } := by
  simp only [runMain]
  rw [show (fsLookup ({ st with logs := st.logs ++ ["Template Sync Tool"] } : St).files
    SYNC_CONFIG).bind p = some cfg from hcfg]
  dsimp only
  rw [hcond]
  rfl

theorem dotEq_nil_left (s : List Char) : dotEq [] s = s.isEmpty := by
  cases s <;> rfl

theorem dotEq_cons_nil (a : Char) (as : List Char) : dotEq (a :: as) [] = false := rfl

theorem dotEq_cons (a : Char) (as : List Char) (b : Char) (bs : List Char) :
    dotEq (a :: as) (b :: bs) = if a = '.' ∨ a = b then dotEq as bs else false := rfl

theorem breParseAtom_cons (c : Char) (rest : List Char) :
    breParseAtom (c :: rest) =
      (if c = '\\' then
        match rest with
        | c2 :: rest2 => some (.lit c2, rest2)
        | [] => some (.lit '\\', [])
      else if c = '.' then some (.dot, rest)
      else if c = '[' then
        (let nb : Bool × List Char :=
          match rest with
          | '^' :: rest2 => (true, rest2)
          | _ => (false, rest)
        match classSpan nb.2 with
        | some (members, rest2) => some (.cls nb.1 members, rest2)
        | none => some (.lit '[', rest))
      else some (.lit c, rest)) := rfl

theorem breMatchAux_succ (fuel : Nat) (pat s : List Char) :
    breMatchAux (fuel + 1) pat s =
      (match breParseAtom pat with
      | none => s.isEmpty
      | some (a, rest) =>
        if isStar rest then
          if breMatchAux fuel (rest.drop 1) s then true
          else
            match s with
            | [] => false
            | c :: cs => if atomMatches a c then breMatchAux fuel pat cs else false
        else
          match s with
          | [] => false
          | c :: cs => if atomMatches a c then breMatchAux fuel rest cs else false) := rfl

theorem breMatch_dotEq (pat : List Char)
    (hmeta : pat.all (fun c => ¬ (c = '\\' ∨ c = '[' ∨ c = '*')) = true) :
    ∀ (fuel : Nat) (s : List Char), pat.length < fuel →
      breMatchAux fuel pat s = dotEq pat s := by
  induction pat with
  | nil =>
    intro fuel s hf
    cases fuel with
    | zero => omega
    | succ f =>
      rw [dotEq_nil_left]
      rfl
  | cons c cs ih =>
    intro fuel s hf
    cases fuel with
    | zero => omega
    | succ f =>
      have hcm : ¬ (c = '\\' ∨ c = '[' ∨ c = '*') := by
        have h1 := List.all_eq_true.mp hmeta c (List.mem_cons_self _ _)
        simpa using h1
      have hcs : cs.all (fun c => ¬ (c = '\\' ∨ c = '[' ∨ c = '*')) = true := by
        apply List.all_eq_true.mpr
        intro x hx
        exact List.all_eq_true.mp hmeta x (List.mem_cons_of_mem _ hx)
      have hc1 : ¬ c = '\\' := fun h => hcm (Or.inl h)
      have hc2 : ¬ c = '[' := fun h => hcm (Or.inr (Or.inl h))
      have hstar : isStar cs = false := by
        cases cs with
        | nil => rfl
        | cons c2 cs2 =>
          have h2 := List.all_eq_true.mp hcs c2 (List.mem_cons_self _ _)
          have h3 : ¬ c2 = '*' := fun h => (by simpa using h2 : ¬ _) (Or.inr (Or.inr h))
          unfold isStar
          simp [h3]
      have hrec : cs.length < f := by
        have := Nat.lt_succ_iff.mp hf
        simpa using this
      by_cases hdot : c = '.'
      · subst hdot
        have hparse : breParseAtom ('.' :: cs) = some (.dot, cs) := by
          rw [breParseAtom_cons, if_neg (by decide), if_pos rfl]
        rw [breMatchAux_succ, hparse]
        dsimp only
        rw [hstar, if_neg Bool.false_ne_true]
        cases s with
        | nil => rw [dotEq_cons_nil]
        | cons c' s' =>
          dsimp only
          rw [dotEq_cons, if_pos (Or.inl rfl)]
          rw [if_pos (by rfl : atomMatches .dot c' = true)]
          exact ih hcs f s' hrec
      · have hparse : breParseAtom (c :: cs) = some (.lit c, cs) := by
          rw [breParseAtom_cons, if_neg hc1, if_neg hdot, if_neg hc2]
        rw [breMatchAux_succ, hparse]
        dsimp only
        rw [hstar, if_neg Bool.false_ne_true]
        cases s with
        | nil => rw [dotEq_cons_nil]
        | cons c' s' =>
          dsimp only
          rw [dotEq_cons]
          by_cases hcc : c = c'
          · rw [if_pos (show atomMatches (.lit c) c' = true from by
              unfold atomMatches
              exact decide_eq_true hcc)]
            rw [if_pos (show c = '.' ∨ c = c' from Or.inr hcc)]
            exact ih hcs f s' hrec
          · rw [if_neg (show ¬ atomMatches (.lit c) c' = true from by
              unfold atomMatches
              exact fun h => hcc (of_decide_eq_true h))]
            rw [if_neg (show ¬ (c = '.' ∨ c = c') from by
              rintro (h | h)
              · exact hdot h
              · exact hcc h)]

theorem breFullMatch_dotEq (f l : String) (hm : noMetaStr f = true) :
    breFullMatch f l = dotEq f.data l.data := by
  unfold breFullMatch
  apply breMatch_dotEq f.data hm
  have : f.length = f.data.length := rfl
  omega

theorem globMatch_nil_pat (f : String) : globMatch "" f = f.data.isEmpty := by
  unfold globMatch
  show globMatchAux (0 + f.length + 1) [] f.data = f.data.isEmpty
  rfl

theorem data_ne_nil (f : String) (hf : f ≠ "") : f.data.isEmpty = false := by
  cases hd : f.data with
  | nil =>
    exact absurd (String.ext hd) hf
  | cons a as => rfl

theorem hereLines_any_glob (xs : List String) (f : String) (hf : f ≠ "") :
    (hereLines xs).any (fun pat => globMatch pat f) =
      xs.any (fun pat => globMatch pat f) := by
  unfold hereLines
  by_cases hx : xs = []
  · rw [if_pos hx, hx]
    simp [globMatch_nil_pat, data_ne_nil f hf]
  · rw [if_neg hx]

theorem excludedBy_any (cfg : SyncConfig) (f : String) (hf : f ≠ "") :
    excludedBy (some cfg) f = cfg.exclude.any (fun pat => globMatch pat f) := by
  unfold excludedBy
  exact hereLines_any_glob cfg.exclude f hf

theorem strategyOfBool (cfg : SyncConfig) (f : String) (hm : noMetaStr f = true)
    (hf : f ≠ "") :
    (strategyOf (some cfg) f = "overwrite" ↔
      cfg.overwrite.any (fun l => dotEq f.data l.data) = true) ∧
    (strategyOf (some cfg) f = "merge" ↔
      (cfg.overwrite.any (fun l => dotEq f.data l.data) = false ∧
       cfg.merge.any (fun l => dotEq f.data l.data) = true)) ∧
    (strategyOf (some cfg) f = "create_if_missing" ↔
      (cfg.overwrite.any (fun l => dotEq f.data l.data) = false ∧
       cfg.merge.any (fun l => dotEq f.data l.data) = false ∧
       cfg.create_if_missing.any (fun pat => globMatch pat f) = true)) := by
  unfold strategyOf
  dsimp only
  simp only [breFullMatch_dotEq _ _ hm]
  rw [hereLines_any_glob _ _ hf]
  by_cases h1 : cfg.overwrite.any (fun l => dotEq f.data l.data) = true
  · rw [if_pos h1]
    simp [h1]
  · have h1f : cfg.overwrite.any (fun l => dotEq f.data l.data) = false := by
      revert h1
      cases cfg.overwrite.any (fun l => dotEq f.data l.data) <;> simp
    rw [if_neg h1]
    by_cases h2 : cfg.merge.any (fun l => dotEq f.data l.data) = true
    · rw [if_pos h2]
      simp [h1f, h2]
    · have h2f : cfg.merge.any (fun l => dotEq f.data l.data) = false := by
        revert h2
        cases cfg.merge.any (fun l => dotEq f.data l.data) <;> simp
      rw [if_neg h2]
      by_cases h3 : cfg.create_if_missing.any (fun pat => globMatch pat f) = true
      · rw [if_pos h3]
        simp [h1f, h2f, h3]
      · have h3f : cfg.create_if_missing.any (fun pat => globMatch pat f) = false := by
          revert h3
          cases cfg.create_if_missing.any (fun pat => globMatch pat f) <;> simp
        rw [if_neg h3]
        simp [h1f, h2f, h3f]

theorem runMain_noNested_frame (p : String → Option SyncConfig) (repo : RemoteRepo)
    (b : String) (force confirm : Bool) (st : St) (f : String)
    (hrepo : ∀ e ∈ repo.files, scratchName e.1 = false)
    (hq : scratchName f = false) (hv : f ≠ TEMPLATE_VERSION_FILE) :
    fsLookup (runMain p repo b false force false confirm st).st.files f =
      fsLookup st.files f ∧
    (runMain p repo b false force false confirm st).st.applied = st.applied := by
  cases hcfg : (fsLookup st.files SYNC_CONFIG).bind p with
  | none =>
    rw [runMain_eq_none p repo b false force false confirm st hcfg]
    exact ⟨rfl, rfl⟩
  | some cfg =>
    by_cases hcond : (!force && !(false : Bool) && !confirm) = true
    · rw [runMain_eq_cancel p repo b false force confirm st cfg hcfg hcond]
      exact ⟨rfl, rfl⟩
    · have hcond2 : (!force && !(false : Bool) && !confirm) = false := by
        revert hcond
        cases (!force && !(false : Bool) && !confirm) <;> simp
      rw [runMain_eq_sync p repo b false force confirm st cfg hcfg hcond2]
      cases hc : repo.cloneOk with
      | false =>
        rw [mainSyncPath_eq_fail p repo b false _ hc]
        refine ⟨?_, ?_⟩
        · exact preClone_files p b false _ f hq
        · exact preClone_applied p b false _
      | true =>
        rw [mainSyncPath_eq_ok p repo b false _ hc]
        have hn : ∀ z, fsLookup (addSnapshot
            (preClone p b false { st with logs := st.logs ++ ["Template Sync Tool"] }) repo).files
            (joinPath TEMP_DIR (TEMP_DIR ++ "/" ++ z)) = none := by
          intro z
          exact addSnapshot_nested_none _ repo z hrepo (preClone_nested_none p b false _ z)
        obtain ⟨hfu, hap⟩ := afterClone_false_noNested p repo b _ hn
        refine ⟨?_, ?_⟩
        · rw [hfu f hq hv, addSnapshot_lookup_nonscratch _ _ _ hq,
            preClone_files p b false _ f hq]
        · rw [hap, addSnapshot_applied, preClone_applied]

/-- C1: the claim states that a file classified `overwrite` ends up with the
upstream content locally after a non-dry-run sync, with a pre-sync backup of
a differing local file.  Evaluating the embedded script on the spec's own
scenario (local `.gitignore` = `custom`, upstream `.gitignore` =
`# Updated`, `overwrite: [.gitignore]`) shows the run succeeds yet the
local file still holds `custom`, no backup of it exists under the run's
backup directory, and no strategy mutation was performed at all: inside
`sync_files` the working directory is the scratch clone, so the copy
source `$TEMP_DIR/$file` resolves to a nonexistent nested path and
`sync_file` returns early for every file. -/
theorem claim_c1_overwrite_never_applied :
    strategyOf (snapCfg demoParse repoC1) ".gitignore" = "overwrite" ∧
    fsLookup repoC1.files ".gitignore" = some "# Updated" ∧
    fsLookup stC1.files ".gitignore" = some "custom" ∧
    (runMain demoParse repoC1 ".template-backup/TS" false true false true stC1).exitCode = 0 ∧
    fsLookup (runMain demoParse repoC1 ".template-backup/TS" false true false true
      stC1).st.files ".gitignore" = some "custom" ∧
    fsLookup (runMain demoParse repoC1 ".template-backup/TS" false true false true
      stC1).st.files ".template-backup/TS/.gitignore" = none ∧
    (runMain demoParse repoC1 ".template-backup/TS" false true false true stC1).st.applied
      = [] := by
  decide

/-- C2: the claim states that a file classified `merge` whose local content
differs gets a sibling `.merge` file with the upstream content and a backup.
Evaluating the embedded script on the spec's own scenario (local and
upstream `Makefile` with different appended targets, `merge: [Makefile]`)
shows the local file is indeed unchanged, but no `Makefile.merge` sibling
and no backup are created, and no strategy mutation is performed: the copy
source `$TEMP_DIR/$file` never exists once `sync_files` has changed into
the scratch clone. -/
theorem claim_c2_merge_never_applied :
    strategyOf (snapCfg demoParse repoC2) "Makefile" = "merge" ∧
    fsLookup stC2.files "Makefile" = some "all:\ncustom-target:" ∧
    fsLookup repoC2.files "Makefile" = some "all:\ntemplate-target:" ∧
    (runMain demoParse repoC2 "BD" false true false true stC2).exitCode = 0 ∧
    fsLookup (runMain demoParse repoC2 "BD" false true false true stC2).st.files
      "Makefile" = some "all:\ncustom-target:" ∧
    fsLookup (runMain demoParse repoC2 "BD" false true false true stC2).st.files
      "Makefile.merge" = none ∧
    fsLookup (runMain demoParse repoC2 "BD" false true false true stC2).st.files
      "BD/Makefile" = none ∧
    (runMain demoParse repoC2 "BD" false true false true stC2).st.applied = [] := by
  decide

/-- C4: the claim (and the repository's own test `test_check_updates`)
says `--check` exits non-zero precisely when updates are available.  The
embedded script does the opposite: when the marker differs from the latest
tag, `check_updates` returns 0 and `main` reaches `exit 0`; when they are
equal, its `return 1` trips `set -e` and the process dies with status 1. -/
theorem claim_c4_check_exit_inverted :
    get_current_version stC4 = "v1.0.0" ∧
    get_latest_version repoAvail = "v1.1.0" ∧
    (runMain demoParse repoAvail "BD" false false true true stC4).exitCode = 0 ∧
    "Updates available!" ∈
      (runMain demoParse repoAvail "BD" false false true true stC4).st.logs ∧
    get_latest_version repoSame = "v1.0.0" ∧
    (runMain demoParse repoSame "BD" false false true true stC4).exitCode = 1 ∧
    "Already up to date" ∈
      (runMain demoParse repoSame "BD" false false true true stC4).st.logs := by
  decide

/-- C3: counterexample to the claim that every snapshot file matching an
exclude pattern is left byte-for-byte unchanged.  With `exclude:
[.template-*]` the snapshot's `.template-version` is excluded, yet a
successful non-dry-run sync rewrites the local marker with the clone's
`git describe` output in the version-update step of `main`, which runs
unconditionally after the per-file loop. -/
theorem claim_c3_counterexample :
    excludedBy (snapCfg demoParse repoC3) ".template-version" = true ∧
    fsLookup stC3.files ".template-version" = some "old" ∧
    (runMain demoParse repoC3 "BD" false true false true stC3).exitCode = 0 ∧
    fsLookup (runMain demoParse repoC3 "BD" false true false true stC3).st.files
      ".template-version" = some "v2.0.0-5-gabc1234" := by
  decide

/-- C3 (amended): for every path other than the version marker
`.template-version`, a non-dry-run sync over a snapshot without nested
scratch paths leaves the local file byte-for-byte unchanged and applies no
strategy whenever the path matches an exclude pattern of the snapshot's
configuration (exclusion is evaluated before the strategy categories); the
version marker itself is rewritten by the unconditional version-update
step even when excluded. -/
theorem claim_c3_excluded_untouched (p : String → Option SyncConfig)
    (repo : RemoteRepo) (b : String) (force confirm : Bool) (st : St) (f : String)
    (hrepo : ∀ e ∈ repo.files, scratchName e.1 = false)
    (_hex : excludedBy (snapCfg p repo) f = true)
    (hq : scratchName f = false) (hv : f ≠ TEMPLATE_VERSION_FILE) :
    fsLookup (runMain p repo b false force false confirm st).st.files f =
      fsLookup st.files f ∧
    (runMain p repo b false force false confirm st).st.applied = st.applied := by
  exact runMain_noNested_frame p repo b force confirm st f hrepo hq hv

/-- C3: witness for the amended statement at a concrete world. -/
theorem claim_c3_excluded_untouched_witness :
    (∀ e ∈ repoC3.files, scratchName e.1 = false) ∧
    excludedBy (snapCfg demoParse repoC3) ".template-sync.yml" = true ∧
    scratchName ".template-sync.yml" = false ∧
    ".template-sync.yml" ≠ TEMPLATE_VERSION_FILE ∧
    (fsLookup (runMain demoParse repoC3 "BD" false true false true stC3).st.files
        ".template-sync.yml" = fsLookup stC3.files ".template-sync.yml" ∧
      (runMain demoParse repoC3 "BD" false true false true stC3).st.applied =
        stC3.applied) := by
  refine ⟨by decide, by decide, by decide, by decide, ?_⟩
  exact claim_c3_excluded_untouched demoParse repoC3 "BD" true true stC3
    ".template-sync.yml" (by decide) (by decide) (by decide) (by decide)

/-- C5: counterexample to the claim that a failed clone aborts before any
local mutation.  In `main` the backup directory is created and the
pre-sync hooks run before `clone_template` is reached, so after a failed
clone (exit 128 under `set -e`) the backup directory exists and the hook
side effects have happened. -/
theorem claim_c5_counterexample :
    repoFail.cloneOk = false ∧
    (runMain demoParse repoFail "BD" false true false true stC5).exitCode = 128 ∧
    "BD" ∈ (runMain demoParse repoFail "BD" false true false true stC5).st.dirs ∧
    (runMain demoParse repoFail "BD" false true false true stC5).st.hooksRun =
      ["touch .pre-sync-marker"] := by
  decide

/-- C5 (amended): when the clone of the template repository fails, the run
aborts with exit status 128 before any per-file mutation: every
non-scratch file is unchanged and no strategy was applied — but the backup
directory has already been created and the configured pre-sync hooks have
already run, because `main` performs both before `clone_template`. -/
theorem claim_c5_fetch_failure (p : String → Option SyncConfig)
    (repo : RemoteRepo) (b : String) (force confirm : Bool) (st : St)
    (cfg : SyncConfig)
    (hclone : repo.cloneOk = false)
    (hcfg : (fsLookup st.files SYNC_CONFIG).bind p = some cfg)
    (hgo : force = true ∨ confirm = true) :
    (runMain p repo b false force false confirm st).exitCode = 128 ∧
    (∀ q, scratchName q = false →
      fsLookup (runMain p repo b false force false confirm st).st.files q =
        fsLookup st.files q) ∧
    (runMain p repo b false force false confirm st).st.applied = st.applied ∧
    (runMain p repo b false force false confirm st).st.hooksRun =
      st.hooksRun ++ hookLines cfg.pre_sync ∧
    (scratchName b = false → b ∈ (runMain p repo b false force false confirm st).st.dirs) := by
  have hcond2 : (!force && !(false : Bool) && !confirm) = false := by
    rcases hgo with rfl | rfl <;> simp
  rw [runMain_eq_sync p repo b false force confirm st cfg hcfg hcond2]
  rw [mainSyncPath_eq_fail p repo b false _ hclone]
  dsimp only
  have hyq : yqList p ({ st with logs := st.logs ++ ["Template Sync Tool"] } : St)
      SYNC_CONFIG (fun c => c.pre_sync) = cfg.pre_sync := by
    unfold yqList
    rw [show (fsLookup ({ st with logs := st.logs ++ ["Template Sync Tool"] } : St).files
      SYNC_CONFIG).bind p = some cfg from hcfg]
  refine ⟨rfl, ?_, ?_, ?_, ?_⟩
  · intro q hq
    exact preClone_files p b false _ q hq
  · exact preClone_applied p b false _
  · rw [preClone_hooksRun, if_neg Bool.false_ne_true, hyq]
  · intro hb
    exact preClone_mem_backupDir p b _ hb

/-- C5: witness for the amended statement at a concrete world. -/
theorem claim_c5_fetch_failure_witness :
    repoFail.cloneOk = false ∧
    (fsLookup stC5.files SYNC_CONFIG).bind demoParse = some cfgHooksOnly ∧
    ((true : Bool) = true ∨ (true : Bool) = true) ∧
    ((runMain demoParse repoFail "BD" false true false true stC5).exitCode = 128 ∧
     (∀ q, scratchName q = false →
       fsLookup (runMain demoParse repoFail "BD" false true false true stC5).st.files q =
         fsLookup stC5.files q) ∧
     (runMain demoParse repoFail "BD" false true false true stC5).st.applied =
       stC5.applied ∧
     (runMain demoParse repoFail "BD" false true false true stC5).st.hooksRun =
       stC5.hooksRun ++ hookLines cfgHooksOnly.pre_sync ∧
     (scratchName "BD" = false →
       "BD" ∈ (runMain demoParse repoFail "BD" false true false true stC5).st.dirs)) := by
  refine ⟨by decide, by rfl, Or.inl rfl, ?_⟩
  exact claim_c5_fetch_failure demoParse repoFail "BD" true true stC5 cfgHooksOnly
    (by decide) (by rfl) (Or.inl rfl)

/-- C7: counterexample to the claim that a file classified
`create_if_missing` that already exists locally is unchanged independent
of upstream content.  When that file is the version marker
`.template-version`, the unconditional version-update step of `main`
rewrites it with the clone's `git describe` output. -/
theorem claim_c7_counterexample :
    strategyOf (snapCfg demoParse repoC7) ".template-version" = "create_if_missing" ∧
    fsLookup stC7.files ".template-version" = some "old" ∧
    (runMain demoParse repoC7 "BD" false true false true stC7).exitCode = 0 ∧
    fsLookup (runMain demoParse repoC7 "BD" false true false true stC7).st.files
      ".template-version" = some "v3.0.0-2-gdef5678" := by
  decide

/-- C7 (amended): for every path other than the version marker
`.template-version`, if the snapshot's configuration classifies it
`create_if_missing` and a local counterpart exists, a non-dry-run sync
over a snapshot without nested scratch paths leaves the local content
byte-for-byte unchanged, independent of the upstream content. -/
theorem claim_c7_create_existing_unchanged (p : String → Option SyncConfig)
    (repo : RemoteRepo) (b : String) (force confirm : Bool) (st : St)
    (f c : String)
    (hrepo : ∀ e ∈ repo.files, scratchName e.1 = false)
    (_hcls : strategyOf (snapCfg p repo) f = "create_if_missing")
    (hq : scratchName f = false) (hv : f ≠ TEMPLATE_VERSION_FILE)
    (hloc : fsLookup st.files f = some c) :
    fsLookup (runMain p repo b false force false confirm st).st.files f = some c := by
  rw [(runMain_noNested_frame p repo b force confirm st f hrepo hq hv).1]
  exact hloc

/-- C7: witness for the amended statement at a concrete world. -/
theorem claim_c7_create_existing_unchanged_witness :
    (∀ e ∈ repoW7.files, scratchName e.1 = false) ∧
    strategyOf (snapCfg wParse7 repoW7) "docs/new-example.md" = "create_if_missing" ∧
    scratchName "docs/new-example.md" = false ∧
    "docs/new-example.md" ≠ TEMPLATE_VERSION_FILE ∧
    fsLookup stW7.files "docs/new-example.md" = some "mine" ∧
    fsLookup (runMain wParse7 repoW7 "BD" false true false true stW7).st.files
      "docs/new-example.md" = some "mine" := by
  refine ⟨by decide, by decide, by decide, by decide, by decide, ?_⟩
  exact claim_c7_create_existing_unchanged wParse7 repoW7 "BD" true true stW7
    "docs/new-example.md" "mine" (by decide) (by decide) (by decide) (by decide)
    (by decide)

/-- C10: the version identifier a successful non-dry-run sync writes to
the marker is the clone's `git describe --tags --always` output, while
`--check` compares the marker against the highest `vN.N.N` tag from
`git ls-remote --tags`; on a repository whose head sits two commits past
its newest tag the two differ, so a sync immediately followed by `--check`
still exits on the updates-available path. -/
theorem claim_c10_sync_then_check :
    fsLookup (runMain demoParse repoC10 "BD" false true false true stC10).st.files
      ".template-version" = some repoC10.headDescribe ∧
    get_latest_version repoC10 = "v1.1.0" ∧
    repoC10.headDescribe ≠ get_latest_version repoC10 ∧
    (runMain demoParse repoC10 "BD" false false true true
      (runMain demoParse repoC10 "BD" false true false true stC10).st).exitCode = 0 ∧
    "Updates available!" ∈ (runMain demoParse repoC10 "BD" false false true true
      (runMain demoParse repoC10 "BD" false true false true stC10).st).st.logs := by
  decide

/-- C6: under `--dry-run`, the run performs no filesystem mutation to any
non-scratch file, creates no new backup directory, executes no hooks and
applies no strategy, while announcing the hooks it would have run. -/
theorem claim_c6_dry_run (p : String → Option SyncConfig) (repo : RemoteRepo)
    (b : String) (force confirm : Bool) (st : St) :
    (∀ q, scratchName q = false →
      fsLookup (runMain p repo b true force false confirm st).st.files q =
        fsLookup st.files q) ∧
    (∀ d, scratchName d = false →
      (d ∈ (runMain p repo b true force false confirm st).st.dirs ↔ d ∈ st.dirs)) ∧
    (runMain p repo b true force false confirm st).st.hooksRun = st.hooksRun ∧
    (runMain p repo b true force false confirm st).st.applied = st.applied ∧
    (∀ cfg, (fsLookup st.files SYNC_CONFIG).bind p = some cfg →
      ∀ h ∈ hookLines cfg.pre_sync,
        ("[DRY RUN] Would run: " ++ h) ∈
          (runMain p repo b true force false confirm st).st.logs) := by
  cases hcfg : (fsLookup st.files SYNC_CONFIG).bind p with
  | none =>
    rw [runMain_eq_none p repo b true force false confirm st hcfg]
    refine ⟨fun q _ => rfl, fun d _ => Iff.rfl, rfl, rfl, ?_⟩
    intro cfg hcfg2 h hh
    cases hcfg2
  | some cfg =>
    have hcond : (!force && !(true : Bool) && !confirm) = false := by simp
    rw [runMain_eq_sync p repo b true force confirm st cfg hcfg hcond]
    cases hc : repo.cloneOk with
    | false =>
      rw [mainSyncPath_eq_fail p repo b true _ hc]
      dsimp only
      refine ⟨?_, ?_, ?_, ?_, ?_⟩
      · intro q hq
        exact preClone_files p b true _ q hq
      · intro d hd
        exact preClone_dirs_dry p b _ d hd
      · rw [preClone_hooksRun, if_pos rfl]
        exact List.append_nil _
      · exact preClone_applied p b true _
      · intro cfg2 hcfg2 h hh
        injection hcfg2 with he
        subst he
        apply preClone_dry_mem p b _ h
        have hyq : yqList p ({ st with logs := st.logs ++ ["Template Sync Tool"] } : St)
            SYNC_CONFIG (fun c => c.pre_sync) = cfg.pre_sync := by
          unfold yqList
          rw [show (fsLookup ({ st with logs := st.logs ++ ["Template Sync Tool"] } : St).files
            SYNC_CONFIG).bind p = some cfg from hcfg]
        rw [hyq]
        exact hh
    | true =>
      rw [mainSyncPath_eq_ok p repo b true _ hc]
      dsimp only
      obtain ⟨hAf, hAd, hAh, hAa, _hAl⟩ := afterClone_dry p repo b
        (addSnapshot (preClone p b true { st with logs := st.logs ++ ["Template Sync Tool"] }) repo)
      refine ⟨?_, ?_, ?_, ?_, ?_⟩
      · intro q hq
        rw [hAf q hq, addSnapshot_lookup_nonscratch _ _ _ hq,
          preClone_files p b true _ q hq]
      · intro d hd
        rw [hAd d hd, addSnapshot_dirs_mem _ _ _ hd]
        exact preClone_dirs_dry p b _ d hd
      · rw [hAh, addSnapshot_hooksRun, preClone_hooksRun, if_pos rfl]
        exact List.append_nil _
      · rw [hAa, addSnapshot_applied, preClone_applied]
      · intro cfg2 hcfg2 h hh
        injection hcfg2 with he
        subst he
        obtain ⟨t, ht⟩ := _hAl
        rw [ht, addSnapshot_logs]
        apply List.mem_append_left
        apply preClone_dry_mem p b _ h
        have hyq : yqList p ({ st with logs := st.logs ++ ["Template Sync Tool"] } : St)
            SYNC_CONFIG (fun c => c.pre_sync) = cfg.pre_sync := by
          unfold yqList
          rw [show (fsLookup ({ st with logs := st.logs ++ ["Template Sync Tool"] } : St).files
            SYNC_CONFIG).bind p = some cfg from hcfg]
        rw [hyq]
        exact hh

/-- C6: witness at a concrete dry run with a configured pre-sync hook. -/
theorem claim_c6_dry_run_witness :
    scratchName "README.md" = false ∧
    fsLookup (runMain demoParse repoC6 "BD" true false false false stC6).st.files
      "README.md" = fsLookup stC6.files "README.md" ∧
    (runMain demoParse repoC6 "BD" true false false false stC6).st.hooksRun =
      stC6.hooksRun ∧
    (runMain demoParse repoC6 "BD" true false false false stC6).st.applied =
      stC6.applied ∧
    "[DRY RUN] Would run: touch .pre-sync-marker" ∈
      (runMain demoParse repoC6 "BD" true false false false stC6).st.logs := by
  have h := claim_c6_dry_run demoParse repoC6 "BD" false false stC6
  refine ⟨by decide, h.1 "README.md" (by decide), h.2.2.1, h.2.2.2.1, ?_⟩
  exact h.2.2.2.2 cfgHooksOnly (by rfl) "touch .pre-sync-marker" (by decide)

/-- C8: counterexample to the claim that all four configuration lists use
the same path-glob semantics.  With the glob `*.md` listed under
`overwrite`, the path `README.md` glob-matches the entry, yet
`get_sync_strategy` resolves it to `skip`: the `overwrite` and `merge`
lists are tested with `grep -q "^$file$"`, where the file path is the
pattern and the entries are plain lines, not glob patterns. -/
theorem claim_c8_counterexample :
    globMatch "*.md" "README.md" = true ∧
    get_sync_strategy demoParse stC8 TEMP_DIR "README.md" = "skip" := by
  decide

/-- C8 (amended): for a metacharacter-free path, classification splits
into two different matchers: `exclude` and `create_if_missing` entries are
interpreted as glob patterns matched against the path, while `overwrite`
and `merge` entries are compared with `grep -q "^$file$"` — the path,
taken as an anchored regular expression in which `.` matches any
character, against each entry as a literal line — with categories resolved
in the order overwrite, merge, create_if_missing, skip. -/
theorem claim_c8_two_matchers (p : String → Option SyncConfig) (st : St)
    (cwd f : String) (cfg : SyncConfig)
    (hcfg : configAt p st (joinPath cwd SYNC_CONFIG) = some cfg)
    (hm : noMetaStr f = true) (hf : f ≠ "") :
    (should_sync_file p st cwd f = false ↔
      ∃ pat ∈ cfg.exclude, globMatch pat f = true) ∧
    (get_sync_strategy p st cwd f = "overwrite" ↔
      ∃ l ∈ cfg.overwrite, dotEq f.data l.data = true) ∧
    (get_sync_strategy p st cwd f = "merge" ↔
      ((∀ l ∈ cfg.overwrite, dotEq f.data l.data = false) ∧
       ∃ l ∈ cfg.merge, dotEq f.data l.data = true)) ∧
    (get_sync_strategy p st cwd f = "create_if_missing" ↔
      ((∀ l ∈ cfg.overwrite, dotEq f.data l.data = false) ∧
       (∀ l ∈ cfg.merge, dotEq f.data l.data = false) ∧
       ∃ pat ∈ cfg.create_if_missing, globMatch pat f = true)) := by
  unfold should_sync_file get_sync_strategy
  rw [hcfg]
  obtain ⟨hO, hM, hC⟩ := strategyOfBool cfg f hm hf
  refine ⟨?_, ?_, ?_, ?_⟩
  · rw [excludedBy_any cfg f hf]
    simp [List.any_eq_true]
  · rw [hO]
    simp [List.any_eq_true]
  · rw [hM]
    simp [List.any_eq_true, List.any_eq_false]
  · rw [hC]
    simp [List.any_eq_true, List.any_eq_false]

/-- C8: witness for the amended statement at a concrete world where the
glob `*.md` sits under `overwrite`. -/
theorem claim_c8_two_matchers_witness :
    configAt demoParse stC8 (joinPath TEMP_DIR SYNC_CONFIG) = some cfgOwMd ∧
    noMetaStr "README.md" = true ∧
    "README.md" ≠ "" ∧
    (get_sync_strategy demoParse stC8 TEMP_DIR "README.md" = "overwrite" ↔
      ∃ l ∈ cfgOwMd.overwrite, dotEq "README.md".data l.data = true) := by
  refine ⟨by rfl, by decide, by decide, ?_⟩
  exact (claim_c8_two_matchers demoParse stC8 TEMP_DIR "README.md" cfgOwMd
    (by rfl) (by decide) (by decide)).2.1

/-- C9: during the per-file loop the working directory is the scratch
clone `TEMP_DIR`, so the configuration consulted by `should_sync_file` and
`get_sync_strategy` is the snapshot's `./.template-sync.yml` (the path
resolves inside `TEMP_DIR`), every destination write stays relative to the
snapshot directory (non-scratch paths are untouched by the loop), the
classification depends only on the snapshot configuration's content, and
rewriting the local project's configuration does not change any
classification. -/
theorem claim_c9_snapshot_resolution (p : String → Option SyncConfig)
    (b : String) (dry : Bool) (st : St) :
    joinPath TEMP_DIR SYNC_CONFIG = TEMP_DIR ++ "/" ++ SYNC_CONFIG ∧
    (∀ q, scratchName q = false →
      fsLookup (sync_files p b dry st).files q = fsLookup st.files q) ∧
    (∀ st1 st2 : St, ∀ f,
      fsLookup st1.files (joinPath TEMP_DIR SYNC_CONFIG) =
        fsLookup st2.files (joinPath TEMP_DIR SYNC_CONFIG) →
      should_sync_file p st1 TEMP_DIR f = should_sync_file p st2 TEMP_DIR f ∧
      get_sync_strategy p st1 TEMP_DIR f = get_sync_strategy p st2 TEMP_DIR f) ∧
    (∀ c f,
      should_sync_file p ({ st with files := fsWrite st.files SYNC_CONFIG c } : St)
          TEMP_DIR f = should_sync_file p st TEMP_DIR f ∧
      get_sync_strategy p ({ st with files := fsWrite st.files SYNC_CONFIG c } : St)
          TEMP_DIR f = get_sync_strategy p st TEMP_DIR f) := by
  refine ⟨by decide, ?_, ?_, ?_⟩
  · intro q hq
    exact sync_files_files_frame p b dry st q hq
  · intro st1 st2 f hcfg
    constructor
    · unfold should_sync_file configAt
      rw [hcfg]
    · unfold get_sync_strategy configAt
      rw [hcfg]
  · intro c f
    have hlk : fsLookup (fsWrite st.files SYNC_CONFIG c) (joinPath TEMP_DIR SYNC_CONFIG) =
        fsLookup st.files (joinPath TEMP_DIR SYNC_CONFIG) := by
      rw [fsLookup_fsWrite, if_neg (show ¬ joinPath TEMP_DIR SYNC_CONFIG = SYNC_CONFIG by decide)]
    constructor
    · unfold should_sync_file configAt
      show (!(excludedBy ((fsLookup (fsWrite st.files SYNC_CONFIG c)
        (joinPath TEMP_DIR SYNC_CONFIG)).bind p) f)) = _
      rw [hlk]
    · unfold get_sync_strategy configAt
      show strategyOf ((fsLookup (fsWrite st.files SYNC_CONFIG c)
        (joinPath TEMP_DIR SYNC_CONFIG)).bind p) f = _
      rw [hlk]

/-- C9: witness at a concrete world: the per-file loop leaves the local
project's file alone, and overwriting the local project configuration does
not affect classification. -/
theorem claim_c9_snapshot_resolution_witness :
    scratchName "README.md" = false ∧
    fsLookup (sync_files demoParse "BD" false stC1).files "README.md" =
      fsLookup stC1.files "README.md" ∧
    should_sync_file demoParse
        ({ stC1 with files := fsWrite stC1.files SYNC_CONFIG "cfg-excl-tv" } : St)
        TEMP_DIR ".gitignore" =
      should_sync_file demoParse stC1 TEMP_DIR ".gitignore" := by
  have h := claim_c9_snapshot_resolution demoParse "BD" false stC1
  exact ⟨by decide, h.2.1 "README.md" (by decide), (h.2.2.2 "cfg-excl-tv" ".gitignore").1⟩
